import Mathlib

set_option maxRecDepth 8000

/-!
Verification of the fraud-detection scoring engine.

Shallow embedding of the scoring code:
  * `src/fraud_detector.py`           (`calculate_name_similarity`, `detect_fraud`)
  * `src/mock_api/data_loader.py`     (`find_company_by_name`, `find_employee_by_phone`)
  * `src/mock_api/location_verification.py`
                                      (`verify_device_location`, `verify_device_location_by_city`)
  * `src/mock_api/kyc_match.py`       (`verify_kyc_data`)

Modelling conventions:
  * Python strings are Lean `String`s; `s.lower()` is `pyLower`, `s.strip()` is
    `pyStrip`, `a in b` (substring test) is `strIn`, `s.split()` is `pyWords`,
    and the `a or b` default idiom on strings is `pyOr` (empty string = falsy).
    A JSON field that may be absent is modelled as a `String` field whose
    default `""` plays the role of the absent value, exactly as the code reads
    every such field with `.get(key, "")`.
  * The JSON store behind `load_user_data` / `load_companies_data` is an
    abstract environment `Env`: a map from phone numbers to user records and an
    optional list of company records.
  * Python ints that hold scores are `ℕ` (every score produced by the code is
    nonnegative); the coordinate verifier uses `ℤ` together with `⌊·⌋` since its
    formulas are stated over `ℚ`.
  * The weighted-sum aggregation of `detect_fraud` is performed by Python in
    IEEE-754 double precision, and its rounding is observable in the result, so
    it is embedded exactly: dyadic rationals `Dy` (integer mantissa and binary
    exponent) with `flD` performing the IEEE round-to-nearest-even to 53
    significant bits.  `w3Dy`/`w4Dy` are the exact values of the doubles
    written `0.3` and `0.4` in the source.
  * The haversine distance of `calculate_distance` is transcendental and not
    shallowly embeddable; `verify_device_location` therefore takes the computed
    device-to-target distance `dist : ℚ` as an explicit parameter and the
    claims about it are stated in terms of that distance, as in the spec.
  * Risk-factor strings follow the source but omit the quote characters Python
    embeds in some messages.
-/

/-! ### Python string primitives -/

/-- Python `str.lower()` (per-character lowercasing). -/
def pyLower (s : String) : String := ⟨s.data.map Char.toLower⟩

/-- Leading- and trailing-whitespace removal on character lists. -/
def stripChars (l : List Char) : List Char :=
  ((l.dropWhile Char.isWhitespace).reverse.dropWhile Char.isWhitespace).reverse

/-- Python `str.strip()`. -/
def pyStrip (s : String) : String := ⟨stripChars s.data⟩

/-- `needle` occurs as a contiguous prefix of `hay` (Boolean). -/
def isPrefList : List Char → List Char → Bool
  | [], _ => true
  | _ :: _, [] => false
  | a :: p, b :: l => a = b && isPrefList p l

/-- `needle` occurs contiguously inside `hay` (Boolean). -/
def hasInfixList (needle : List Char) : List Char → Bool
  | [] => isPrefList needle []
  | b :: l => isPrefList needle (b :: l) || hasInfixList needle l

/-- Python `needle in hay` on strings: contiguous substring containment. -/
def strIn (needle hay : String) : Bool := hasInfixList needle.data hay.data

/-- Python `str.split()` with no argument: split on whitespace runs,
dropping empty tokens. -/
def splitWsAux : List Char → List Char → List String
  | [], acc => if acc = [] then [] else [⟨acc.reverse⟩]
  | c :: cs, acc =>
    if c.isWhitespace then
      if acc = [] then splitWsAux cs [] else ⟨acc.reverse⟩ :: splitWsAux cs []
    else splitWsAux cs (c :: acc)

/-- Python `s.split()`. -/
def pyWords (s : String) : List String := splitWsAux s.data []

/-- Python `a or b` on strings (empty string is falsy). -/
def pyOr (a b : String) : String := if a = "" then b else a

/-! ### `calculate_name_similarity` (src/fraud_detector.py lines 18-46) -/

/-- `calculate_name_similarity(name1, name2)`: 0 on an empty argument, 1 on
equal normalized strings, 4/5 on one containing the other, otherwise the
Jaccard overlap of the word sets. -/
def calculate_name_similarity (name1 name2 : String) : ℚ :=
  if name1 = "" ∨ name2 = "" then 0
  else
    let name1_clean := pyStrip (pyLower name1)
    let name2_clean := pyStrip (pyLower name2)
    if name1_clean = name2_clean then 1
    else if strIn name1_clean name2_clean || strIn name2_clean name1_clean then 4/5
    else
      let words1 := (pyWords name1_clean).toFinset
      let words2 := (pyWords name2_clean).toFinset
      if words1 = ∅ ∨ words2 = ∅ then 0
      else
        let overlap := (words1 ∩ words2).card
        let total_unique := (words1 ∪ words2).card
        if 0 < total_unique then (overlap : ℚ) / (total_unique : ℚ) else 0

/-! ### Data model and environment -/

/-- The `data.kyc` part of a user record; absent JSON fields are `""`,
matching the code's uniform `.get(field, "")` reads. -/
structure KycRecord where
  name : String := ""
  givenName : String := ""
  familyName : String := ""
  address : String := ""
  streetName : String := ""
  locality : String := ""
  country : String := ""
deriving DecidableEq

/-- The `data.location` part of a user record.  `radius` is the device
accuracy, defaulting to 500 exactly as `location_data.get('radius', 500)`. -/
structure LocationRecord where
  available : Bool := false
  radius : ℤ := 500
deriving DecidableEq

/-- One user file of `mock_data/users`, keyed by phone number. -/
structure UserRecord where
  kyc : KycRecord := {}
  location : LocationRecord := {}
deriving DecidableEq

/-- One employee entry of a company record. -/
structure Employee where
  name : String := ""
  phone : String := ""
deriving DecidableEq

/-- One company record of `mock_data/companies/companies.json`. -/
structure Company where
  company_name : String := ""
  company_phone : String := ""
  company_employees : List Employee := []
deriving DecidableEq

/-- The mock data store: `load_user_data` keyed by phone, and the optional
companies list returned by `load_companies_data` (`none` when the file is
missing or unreadable). -/
structure Env where
  userData : String → Option UserRecord
  companies : Option (List Company)

/-! ### data_loader (src/mock_api/data_loader.py) -/

/-- `find_company_by_name` (lines 84-108): case-insensitive substring match in
either direction against each `company_name`, first hit wins. -/
def find_company_by_name (env : Env) (company_name : String) : Option Company :=
  if company_name = "" then none
  else
    match env.companies with
    | none => none
    | some companies =>
      let company_name_lower := pyLower company_name
      companies.find? fun company =>
        strIn company_name_lower (pyLower company.company_name) ||
        strIn (pyLower company.company_name) company_name_lower

/-- `find_employee_by_phone` (lines 111-138): exact phone match over all
employees of all companies, in file order. -/
def find_employee_by_phone (env : Env) (phone_number : String) : Option Employee :=
  if phone_number = "" then none
  else
    match env.companies with
    | none => none
    | some companies =>
      (companies.map Company.company_employees).flatten.find? fun employee =>
        employee.phone = phone_number

/-! ### Location verification (src/mock_api/location_verification.py) -/

/-- Result dictionary of the city-based verifier. -/
structure CityVerif where
  scamScore : ℕ
  verificationResult : String
  status : String
deriving DecidableEq

/-- `verify_device_location_by_city` (lines 134-203): compare the claimed city
(and optional country) with the stored KYC locality/country, case-insensitive
substring containment in either direction. -/
def verify_device_location_by_city (env : Env) (phone_number city : String)
    (country : String := "") : CityVerif :=
  match env.userData phone_number with
  | none => { scamScore := 95, verificationResult := "", status := "not_found" }
  | some mock_data =>
    let stored_locality := pyLower mock_data.kyc.locality
    let stored_country := pyLower mock_data.kyc.country
    let city_match := strIn (pyLower city) stored_locality ||
      strIn stored_locality (pyLower city)
    let country_match :=
      if country = "" then true
      else strIn (pyLower country) stored_country || strIn stored_country (pyLower country)
    if city_match && country_match then
      { scamScore := 8, verificationResult := "MATCH", status := "success" }
    else if city_match then
      { scamScore := 25, verificationResult := "CITY_MATCH", status := "success" }
    else if country_match then
      { scamScore := 60, verificationResult := "COUNTRY_MATCH", status := "success" }
    else
      { scamScore := 90, verificationResult := "NO_MATCH", status := "success" }

/-- Python `int()` on a real value: truncation toward zero. -/
def intTrunc (q : ℚ) : ℤ := if 0 ≤ q then ⌊q⌋ else ⌈q⌉

/-- Result dictionary of the coordinate-based verifier; `verificationResult`
is `none` for the not-found payload, which carries no such key. -/
structure CoordVerif where
  scamScore : ℤ
  verificationResult : Option String
  status : String
deriving DecidableEq

/-- `verify_device_location` (lines 29-131).  `dist` is the haversine
distance `calculate_distance(device_lat, device_lon, latitude, longitude)`
in meters, passed explicitly because the trigonometric computation is not
shallowly embeddable; every claim about this function is a statement about
that distance.  A `ValueError` on out-of-range arguments is the `.error`
case. -/
def verify_device_location (env : Env) (phone_number : String)
    (latitude longitude : ℚ) (radius : ℤ) (dist : ℚ) : Except String CoordVerif :=
  if ¬(-90 ≤ latitude ∧ latitude ≤ 90) then
    .error "Latitude must be between -90 and 90"
  else if ¬(-180 ≤ longitude ∧ longitude ≤ 180) then
    .error "Longitude must be between -180 and 180"
  else if ¬(2000 ≤ radius ∧ radius ≤ 200000) then
    .error "Radius must be between 2,000 and 200,000 meters"
  else
    .ok <|
      match env.userData phone_number with
      | none => { scamScore := 95, verificationResult := none, status := "not_found" }
      | some mock_data =>
        if ¬mock_data.location.available then
          { scamScore := 75, verificationResult := some "UNKNOWN", status := "success" }
        else
          let device_accuracy := mock_data.location.radius
          let combined_radius := radius + device_accuracy
          let scored : ℤ × String :=
            if dist ≤ (radius : ℚ) then
              (max 1 (intTrunc (5 + dist / (radius : ℚ) * 10)), "MATCH")
            else if dist ≤ (combined_radius : ℚ) then
              let match_percentage := ((combined_radius : ℚ) - dist) / (device_accuracy : ℚ)
              (intTrunc (20 + (1 - match_percentage) * 30), "PARTIAL_MATCH")
            else if dist ≤ (radius : ℚ) * 2 then
              let distance_factor := (dist - (combined_radius : ℚ)) / (radius : ℚ)
              (intTrunc (50 + distance_factor * 25), "NEAR_MISS")
            else
              let distance_factor := min (dist / ((radius : ℚ) * 10)) 1
              (intTrunc (75 + distance_factor * 24), "NO_MATCH")
          { scamScore := max 1 (min 100 scored.1),
            verificationResult := some scored.2, status := "success" }

/-! ### KYC verification (src/mock_api/kyc_match.py lines 131-226) -/

/-- Result of `verify_kyc_data`. -/
structure KycResult where
  status : String
  overall_match_score : ℕ
deriving DecidableEq

/-- `verify_kyc_data(phone_number, provided_name, provided_address)`:
per-field match scores averaged into `overall_match_score` (0-100, higher =
better match).  The two `int(sum/len)` divisions are by 1 or 2, hence exact in
floating point; they are `ℕ` division here. -/
def verify_kyc_data (env : Env) (phone_number provided_name provided_address : String) :
    KycResult :=
  match env.userData phone_number with
  | none => { status := "not_found", overall_match_score := 0 }
  | some mock_data =>
    let kyc_data := mock_data.kyc
    let nameScores : List ℕ :=
      if provided_name = "" then []
      else if kyc_data.name ≠ "" then
        let provided_name_clean := pyStrip (pyLower provided_name)
        let stored_name_clean := pyStrip (pyLower kyc_data.name)
        if provided_name_clean = stored_name_clean then [100]
        else if strIn (pyLower kyc_data.givenName) provided_name_clean &&
            strIn (pyLower kyc_data.familyName) provided_name_clean then [90]
        else if strIn (pyLower kyc_data.familyName) provided_name_clean then [60]
        else if strIn (pyLower kyc_data.givenName) provided_name_clean then [50]
        else [10]
      else [50]
    let addrScores : List ℕ :=
      if provided_address = "" then []
      else if kyc_data.address ≠ "" ∨ kyc_data.streetName ≠ "" then
        let provided_address_clean := pyStrip (pyLower provided_address)
        if kyc_data.streetName ≠ "" &&
            strIn (pyLower kyc_data.streetName) provided_address_clean then [90]
        else if kyc_data.address ≠ "" &&
            (strIn provided_address_clean (pyLower kyc_data.address) ||
             strIn (pyLower kyc_data.address) provided_address_clean) then [80]
        else [20]
      else [50]
    let scores := nameScores ++ addrScores
    let overall_match_score :=
      if scores = [] then 50 else scores.sum / scores.length
    { status := "success", overall_match_score := overall_match_score }

/-! ### IEEE-754 double-precision model for the weighted aggregation

`detect_fraud` computes `int(sum(score*weight)/sum(weights))` in Python
floats.  All quantities involved are dyadic rationals, so the arithmetic is
embedded exactly: a value is a mantissa times a power of two, and every
operation result is rounded to 53 significant bits, half to even, exactly as
IEEE-754 binary64 does for values in the normal range (these values lie far
inside it, so neither underflow nor overflow occurs). -/

/-- Fuel-driven binary length: `bitLenAux f n` is the number of binary digits
of `n`, provided `n < 2 ^ f`. -/
def bitLenAux : ℕ → ℕ → ℕ
  | 0, _ => 0
  | f + 1, n => if n = 0 then 0 else bitLenAux f (n / 2) + 1

/-- Binary length of `n`, exact for `n < 2 ^ 128` (every mantissa that occurs
in the aggregation is far smaller). -/
def bitLen (n : ℕ) : ℕ := bitLenAux 128 n

/-- A dyadic rational: the value `m * 2 ^ e`. -/
structure Dy where
  m : ℤ
  e : ℤ
deriving DecidableEq

/-- The rational value of a dyadic number. -/
def dyVal (x : Dy) : ℚ := (x.m : ℚ) * (2 : ℚ) ^ x.e

/-- Round a (nonnegative) dyadic value to 53 significant bits, ties to even:
the IEEE-754 binary64 rounding of an exact intermediate result. -/
def flD (x : Dy) : Dy :=
  if x.m ≤ 0 then x
  else
    let n := x.m.toNat
    let L := bitLen n
    if L ≤ 53 then x
    else
      let s := L - 53
      let q := n / 2 ^ s
      let r := n % 2 ^ s
      let half := 2 ^ (s - 1)
      let m' : ℕ :=
        if r < half then q
        else if half < r then q + 1
        else if 2 ∣ q then q else q + 1
      ⟨(m' : ℤ), x.e + (s : ℤ)⟩

/-- Exact sum of two dyadic numbers (mantissas aligned to the smaller
exponent). -/
def dyAdd (a b : Dy) : Dy :=
  if a.e ≤ b.e then ⟨a.m + b.m * 2 ^ (b.e - a.e).toNat, a.e⟩
  else ⟨a.m * 2 ^ (a.e - b.e).toNat + b.m, b.e⟩

/-- Exact product of a natural number and a dyadic number (a Python
`int * float` promotes the int exactly). -/
def dyMulNat (n : ℕ) (x : Dy) : Dy := ⟨(n : ℤ) * x.m, x.e⟩

/-- The IEEE-754 double written `0.3` in the source:
`5404319552844595 * 2 ^ (-54)`. -/
def w3Dy : Dy := ⟨5404319552844595, -54⟩

/-- The IEEE-754 double written `0.4` in the source:
`3602879701896397 * 2 ^ (-53)`. -/
def w4Dy : Dy := ⟨3602879701896397, -53⟩

/-- The float value of `weighted_sum` in `detect_fraud` (line 204): each
product is rounded, then the products are summed left to right with rounded
additions (the initial `0 + x` of Python's `sum` is exact). -/
def pyWeighted (l c k : ℕ) : Dy :=
  let m1 := flD (dyMulNat l w3Dy)
  let m2 := flD (dyMulNat c w4Dy)
  let m3 := flD (dyMulNat k w3Dy)
  flD (dyAdd (flD (dyAdd m1 m2)) m3)

/-- The float value of `total_weight = sum(weights)` (line 205). -/
def pyTotalWeight : Dy := flD (dyAdd (flD (dyAdd w3Dy w4Dy)) w3Dy)

/-- IEEE division `a / b` for the case in which the divisor's mantissa is a
power of two (then the exact quotient is dyadic and division only shifts the
exponent).  The only division the aggregation performs is by
`pyTotalWeight`, whose value is exactly 1, so the fallback for other
divisors is never exercised. -/
def dyDiv (a b : Dy) : Dy :=
  if 0 < b.m ∧ b.m = 2 ^ (bitLen b.m.toNat - 1) then
    flD ⟨a.m, a.e - b.e - (bitLen b.m.toNat - 1 : ℕ)⟩
  else ⟨0, 0⟩

/-- Python `int()` applied to a float value `m * 2 ^ e`: truncation toward
zero. -/
def dyTruncToInt (x : Dy) : ℤ :=
  if 0 ≤ x.e then x.m * 2 ^ x.e.toNat
  else if 0 ≤ x.m then x.m / (2 ^ (-x.e).toNat : ℤ)
  else -((-x.m) / (2 ^ (-x.e).toNat : ℤ))

/-- Lines 202-211 of `detect_fraud`: the weighted overall score
`int(weighted_sum / total_weight)` clamped by `max(1, min(100, .))`. -/
def overallFromScores (l c k : ℕ) : ℕ :=
  let overall_score := dyTruncToInt (dyDiv (pyWeighted l c k) pyTotalWeight)
  (max 1 (min 100 overall_score)).toNat

/-! ### `detect_fraud` (src/fraud_detector.py lines 49-239) -/

/-- Risk levels of the verdict. -/
inductive RiskLevel where
  | LOW
  | MEDIUM
  | HIGH
  | CRITICAL
deriving DecidableEq

/-- Lines 213-221: bucket the overall score into a risk level. -/
def risk_level_of (overall_score : ℕ) : RiskLevel :=
  if overall_score ≤ 25 then .LOW
  else if overall_score ≤ 50 then .MEDIUM
  else if overall_score ≤ 75 then .HIGH
  else .CRITICAL

/-- The extracted-data dictionary consumed by `detect_fraud`; a missing key is
`""` exactly as the code reads every key with `.get(key, "")`. -/
structure ExtractedData where
  name : String := ""
  locality : String := ""
  location : String := ""
  country : String := ""
  address : String := ""
  companyName : String := ""
  company : String := ""

/-- The body of the `try:` block of the company-verification step (lines
114-159), for a nonempty claimed company.  It returns the company score and
the risk factors accumulated so far, or the exception Python raises: when the
caller phone equals the company's official phone, line 152 reads the local
`employee_data`, which that branch never assigns, so the dict construction
raises `UnboundLocalError` after `company_score = 95` and the risk-factor
append have happened.  The error carries the factors already appended,
because `result["risk_factors"]` is mutated in place before the raise. -/
def companyBranchInner (env : Env) (caller_phone caller_name claimed_company : String)
    (factors : List String) : Except (List String × String) (ℕ × List String) :=
  match find_company_by_name env claimed_company with
  | some company_data =>
    if caller_phone = company_data.company_phone then
      .error (factors ++ ["Caller using company official phone number"],
        "cannot access local variable employee_data where it is not associated with a value")
    else
      match find_employee_by_phone env caller_phone with
      | some employee_data =>
        let name_similarity := calculate_name_similarity caller_name employee_data.name
        if 4/5 ≤ name_similarity then
          .ok (10, factors ++ ["Verified employee with name match"])
        else if 1/2 ≤ name_similarity then
          .ok (30, factors ++ ["Employee found but name partially matches"])
        else
          .ok (80, factors ++ ["Employee phone found but name mismatch"])
      | none =>
        .ok (85, factors ++
          ["Claims " ++ claimed_company ++ " employment but not in employee database"])
  | none =>
    .ok (60, factors ++
      ["Claimed company " ++ claimed_company ++ " not found in database"])

/-- The company-verification step (lines 110-166): score 20 when no company is
claimed, otherwise the `try:` body with any exception caught and replaced by
score 70 plus an explanatory risk factor. -/
def companyStep (env : Env) (caller_phone caller_name claimed_company : String)
    (factors : List String) : ℕ × List String :=
  if claimed_company = "" then (20, factors)
  else
    match companyBranchInner env caller_phone caller_name claimed_company factors with
    | .ok (score, fs) => (score, fs)
    | .error (fs, msg) => (70, fs ++ ["Company verification failed: " ++ msg])

/-- The location-verification step (lines 82-108): default 75 when no location
was claimed, otherwise the city verifier's `scamScore` plus the threshold risk
factors. -/
def locationStep (env : Env) (caller_phone caller_location caller_country : String) :
    ℕ × List String :=
  if caller_location = "" then (75, ["No location provided"])
  else
    let location_result :=
      verify_device_location_by_city env caller_phone caller_location caller_country
    let location_score := location_result.scamScore
    let fs :=
      if 70 < location_score then ["Location mismatch: claimed " ++ caller_location]
      else if location_score < 30 then ["Location verified: " ++ caller_location]
      else []
    (location_score, fs)

/-- The KYC-verification step (lines 168-200): invert the match score into a
scam score, 80 when the user is not found. -/
def kycStep (env : Env) (caller_phone caller_name caller_address : String) :
    ℕ × List String :=
  let kyc_result := verify_kyc_data env caller_phone caller_name caller_address
  if kyc_result.status = "success" then
    let match_score := kyc_result.overall_match_score
    let kyc_score := max 1 (100 - match_score)
    let fs :=
      if 80 ≤ match_score then ["Strong KYC data match - low fraud risk"]
      else if 50 ≤ match_score then ["Partial KYC data match - moderate risk"]
      else ["Poor KYC data match - high fraud risk"]
    (kyc_score, fs)
  else (80, ["KYC verification failed or user not found"])

/-- The complete verdict produced by `detect_fraud` (the fields of the result
dictionary that carry scoring state). -/
structure Verdict where
  overall_scam_score : ℕ
  risk_level : RiskLevel
  location_score : ℕ
  company_score : ℕ
  kyc_score : ℕ
  risk_factors : List String

/-- `detect_fraud(extracted_data, caller_phone)`: location, company and KYC
sub-scores, weighted aggregation, risk level and ordered risk factors.
The location and KYC collaborators are total functions of the environment, so
their `except` fallbacks (which the code reaches only on I/O failure) do not
arise; the company branch's internal exception does arise and is embedded in
`companyStep`. -/
def detect_fraud (env : Env) (extracted_data : ExtractedData) (caller_phone : String) :
    Verdict :=
  let caller_name := extracted_data.name
  let caller_location := pyOr extracted_data.locality extracted_data.location
  let caller_country := extracted_data.country
  let caller_address := extracted_data.address
  let claimed_company := pyOr extracted_data.companyName extracted_data.company
  -- 1. location verification (lines 82-108)
  let locPair := locationStep env caller_phone caller_location caller_country
  -- 2. company verification (lines 110-166)
  let compPair := companyStep env caller_phone caller_name claimed_company []
  -- 3. KYC verification (lines 168-200)
  let kycPair := kycStep env caller_phone caller_name caller_address
  -- 4./5. aggregation and bucketing (lines 202-221)
  let overall_score := overallFromScores locPair.1 compPair.1 kycPair.1
  { overall_scam_score := overall_score
    risk_level := risk_level_of overall_score
    location_score := locPair.1
    company_score := compPair.1
    kyc_score := kycPair.1
    risk_factors := locPair.2 ++ compPair.2 ++ kycPair.2 }

/-! ### Statement-level definitions used by the claims -/

/-- Numeric severity rank of a risk level, for monotonicity statements. -/
def riskRank : RiskLevel → ℕ
  | .LOW => 0
  | .MEDIUM => 1
  | .HIGH => 2
  | .CRITICAL => 3

/-- Modelled from the spec wording of claim C2 (not from the source): the
weighted sum `location*0.30 + company*0.40 + kyc*0.30` computed exactly,
rounded to the nearest integer, clamped to [1,100]. -/
def specRoundedOverall (l c k : ℕ) : ℕ :=
  (max 1 (min 100 (round ((3 * l + 4 * c + 3 * k : ℚ) / 10)))).toNat

/-- A concrete environment with one verified-legitimate user: the caller is
an employee of TechCorp calling from their own phone, with matching name and
locality.  Used by concrete evaluations of `detect_fraud`. -/
def envLegit : Env :=
  ⟨fun p =>
    if p = "+40777000111" then some { kyc := { name := "Ana Pop", locality := "Sibiu" } }
    else none,
    some [{ company_name := "TechCorp", company_phone := "+40211000000",
            company_employees := [{ name := "Ana Pop", phone := "+40777000111" }] }]⟩

/-- The extracted claim matching `envLegit`. -/
def exLegit : ExtractedData :=
  { name := "Ana Pop", locality := "Sibiu", companyName := "TechCorp" }

/-- A concrete environment whose only company record lists the caller phone
as the company official phone; no user record exists. -/
def envOfficial : Env :=
  ⟨fun _ => none,
    some [{ company_name := "TechCorp", company_phone := "+40211000000",
            company_employees := [] }]⟩

/-- An extracted claim naming TechCorp, used with `envOfficial` and the
caller phone equal to the company official phone. -/
def exOfficial : ExtractedData := { name := "Ion Blaga", companyName := "TechCorp" }

/-- An environment with two users whose device location is available — one
with the default accuracy 500 and one with accuracy 5000 — for concrete
coordinate-verification runs. -/
def envCoord : Env :=
  ⟨fun p =>
    if p = "+40700000001" then some { location := { available := true, radius := 500 } }
    else if p = "+40700000002" then some { location := { available := true, radius := 5000 } }
    else none,
    none⟩

/-- Case-insensitive contiguous-substring containment in either direction:
the comparison relation the spec describes for the city verifier, stated at
the propositional level. -/
def containsCI (a b : String) : Prop :=
  (pyLower a).data <:+: (pyLower b).data ∨ (pyLower b).data <:+: (pyLower a).data

/-! ### Field equations of `detect_fraud` -/

theorem detect_fraud_location_eq (env : Env) (ex : ExtractedData) (ph : String) :
    (detect_fraud env ex ph).location_score =
      (locationStep env ph (pyOr ex.locality ex.location) ex.country).1 := rfl

theorem detect_fraud_company_eq (env : Env) (ex : ExtractedData) (ph : String) :
    (detect_fraud env ex ph).company_score =
      (companyStep env ph ex.name (pyOr ex.companyName ex.company) []).1 := rfl

theorem detect_fraud_kyc_eq (env : Env) (ex : ExtractedData) (ph : String) :
    (detect_fraud env ex ph).kyc_score = (kycStep env ph ex.name ex.address).1 := rfl

theorem detect_fraud_overall_eq (env : Env) (ex : ExtractedData) (ph : String) :
    (detect_fraud env ex ph).overall_scam_score =
      overallFromScores (locationStep env ph (pyOr ex.locality ex.location) ex.country).1
        (companyStep env ph ex.name (pyOr ex.companyName ex.company) []).1
        (kycStep env ph ex.name ex.address).1 := rfl

theorem detect_fraud_factors_eq (env : Env) (ex : ExtractedData) (ph : String) :
    (detect_fraud env ex ph).risk_factors =
      (locationStep env ph (pyOr ex.locality ex.location) ex.country).2 ++
        (companyStep env ph ex.name (pyOr ex.companyName ex.company) []).2 ++
        (kycStep env ph ex.name ex.address).2 := rfl

/-! ### Bridge lemmas for the string primitives -/

theorem isPrefList_iff (p l : List Char) : isPrefList p l = true ↔ p <+: l := by
  induction p generalizing l with
  | nil => simp [isPrefList]
  | cons a p ih =>
    cases l with
    | nil => simp [isPrefList]
    | cons b l => simp [isPrefList, ih, List.cons_prefix_cons]

theorem hasInfixList_iff (n l : List Char) : hasInfixList n l = true ↔ n <:+: l := by
  induction l with
  | nil => simp [hasInfixList, isPrefList_iff, List.prefix_nil, List.infix_nil]
  | cons b l ih =>
    rw [List.infix_cons_iff]
    simp [hasInfixList, isPrefList_iff, ih]

theorem strIn_iff (a b : String) : strIn a b = true ↔ a.data <:+: b.data :=
  hasInfixList_iff a.data b.data

theorem strIn_self (s : String) : strIn s s = true :=
  (strIn_iff s s).mpr (List.infix_refl _)

theorem strIn_empty_left (s : String) : strIn "" s = true :=
  (strIn_iff "" s).mpr List.nil_infix

theorem stripChars_within (l : List Char) : stripChars l <:+: l := by
  unfold stripChars
  have h1 : l.dropWhile Char.isWhitespace <:+ l := List.dropWhile_suffix _
  have h2 : ((l.dropWhile Char.isWhitespace).reverse.dropWhile Char.isWhitespace) <:+
      (l.dropWhile Char.isWhitespace).reverse := List.dropWhile_suffix _
  have h3 := List.reverse_prefix.mpr h2
  rw [List.reverse_reverse] at h3
  exact h3.isInfix.trans h1.isInfix

theorem strIn_pyStrip (s : String) : strIn (pyStrip s) s = true :=
  (strIn_iff _ _).mpr (stripChars_within s.data)

/-! ### Claim theorems -/

/-- Claim C8: `calculate_name_similarity` is 1 on any pair of equal non-empty
strings, symmetric in its two arguments, and 0 whenever the first argument is
the empty string. -/
theorem C8_name_similarity_algebra :
    (∀ x : String, x ≠ "" → calculate_name_similarity x x = 1) ∧
    (∀ a b : String, calculate_name_similarity a b = calculate_name_similarity b a) ∧
    (∀ y : String, calculate_name_similarity "" y = 0) := by
  refine ⟨fun x hx => ?_, fun a b => ?_, fun y => ?_⟩
  · simp [calculate_name_similarity, hx]
  · simp only [calculate_name_similarity]
    by_cases h0 : a = "" ∨ b = ""
    · rw [if_pos h0, if_pos (or_comm.mp h0)]
    · rw [if_neg h0, if_neg (fun h => h0 (or_comm.mp h))]
      by_cases h1 : pyStrip (pyLower a) = pyStrip (pyLower b)
      · rw [if_pos h1, if_pos h1.symm]
      · rw [if_neg h1, if_neg (Ne.symm h1)]
        by_cases h2 : (strIn (pyStrip (pyLower a)) (pyStrip (pyLower b)) ||
            strIn (pyStrip (pyLower b)) (pyStrip (pyLower a))) = true
        · have h2' : (strIn (pyStrip (pyLower b)) (pyStrip (pyLower a)) ||
              strIn (pyStrip (pyLower a)) (pyStrip (pyLower b))) = true := by
            rwa [Bool.or_comm] at h2
          rw [if_pos h2, if_pos h2']
        · have h2' : ¬(strIn (pyStrip (pyLower b)) (pyStrip (pyLower a)) ||
              strIn (pyStrip (pyLower a)) (pyStrip (pyLower b))) = true := by
            intro h
            exact h2 (by rwa [Bool.or_comm] at h)
          rw [if_neg h2, if_neg h2']
          by_cases h3 : (pyWords (pyStrip (pyLower a))).toFinset = ∅ ∨
              (pyWords (pyStrip (pyLower b))).toFinset = ∅
          · rw [if_pos h3, if_pos (or_comm.mp h3)]
          · have h3' : ¬((pyWords (pyStrip (pyLower b))).toFinset = ∅ ∨
                (pyWords (pyStrip (pyLower a))).toFinset = ∅) := fun h => h3 (or_comm.mp h)
            rw [if_neg h3, if_neg h3']
            rw [Finset.inter_comm ((pyWords (pyStrip (pyLower a))).toFinset),
              Finset.union_comm ((pyWords (pyStrip (pyLower a))).toFinset)]
  · simp [calculate_name_similarity]

/-- Witness for C8 at concrete inputs. -/
theorem C8_name_similarity_algebra_witness :
    calculate_name_similarity "Alice Pop" "Alice Pop" = 1 ∧
    calculate_name_similarity "Ana" "Dan" = calculate_name_similarity "Dan" "Ana" ∧
    calculate_name_similarity "" "Maria" = 0 :=
  ⟨C8_name_similarity_algebra.1 "Alice Pop" (by decide),
   C8_name_similarity_algebra.2.1 "Ana" "Dan",
   C8_name_similarity_algebra.2.2 "Maria"⟩

/-- Claim C4: for overall scores in [1,100], the risk level is LOW exactly on
[1,25], MEDIUM exactly on [26,50], HIGH exactly on [51,75] and CRITICAL
exactly on [76,100]; the stated boundary values bucket as required; the
bucketing is monotone in the score; and `detect_fraud` assigns exactly this
bucket of its overall score. -/
theorem C4_risk_level_bucketing :
    (∀ s : ℕ, 1 ≤ s → s ≤ 100 →
      (risk_level_of s = .LOW ↔ s ≤ 25) ∧
      (risk_level_of s = .MEDIUM ↔ 26 ≤ s ∧ s ≤ 50) ∧
      (risk_level_of s = .HIGH ↔ 51 ≤ s ∧ s ≤ 75) ∧
      (risk_level_of s = .CRITICAL ↔ 76 ≤ s)) ∧
    (risk_level_of 25 = .LOW ∧ risk_level_of 26 = .MEDIUM ∧
     risk_level_of 50 = .MEDIUM ∧ risk_level_of 51 = .HIGH ∧
     risk_level_of 75 = .HIGH ∧ risk_level_of 76 = .CRITICAL) ∧
    (∀ s t : ℕ, s ≤ t → riskRank (risk_level_of s) ≤ riskRank (risk_level_of t)) ∧
    (∀ (env : Env) (extracted_data : ExtractedData) (caller_phone : String),
      (detect_fraud env extracted_data caller_phone).risk_level =
        risk_level_of (detect_fraud env extracted_data caller_phone).overall_scam_score) := by
  refine ⟨fun s h1 h100 => ?_, by decide, fun s t hst => ?_, fun env ex ph => rfl⟩
  · unfold risk_level_of
    split_ifs <;> simp_all <;> omega
  · unfold risk_level_of
    split_ifs <;> simp [riskRank] <;> omega

/-- Witness for C4 at concrete inputs. -/
theorem C4_risk_level_bucketing_witness :
    (risk_level_of 30 = .MEDIUM ↔ 26 ≤ 30 ∧ 30 ≤ 50) ∧
    riskRank (risk_level_of 40) ≤ riskRank (risk_level_of 90) :=
  ⟨(C4_risk_level_bucketing.1 30 (by decide) (by decide)).2.1,
   C4_risk_level_bucketing.2.2.1 40 90 (by decide)⟩

/-- The Boolean city-match test of the verifier is the propositional
case-insensitive containment relation. -/
theorem cityBool_iff (city loc : String) :
    (strIn (pyLower city) (pyLower loc) || strIn (pyLower loc) (pyLower city)) = true ↔
      containsCI city loc := by
  simp [containsCI, strIn_iff]

/-- The Boolean country-match test of the verifier is the propositional
relation, with an absent country counting as a match. -/
theorem countryBool_iff (country co : String) :
    (if country = "" then true
      else strIn (pyLower country) (pyLower co) || strIn (pyLower co) (pyLower country)) = true ↔
      (country = "" ∨ containsCI country co) := by
  split_ifs with h <;> simp [containsCI, strIn_iff, h]

/-- Claim C6: for every phone with a reference record, the city verifier
compares claimed city and optional country against the stored KYC
locality/country by case-insensitive substring containment in either
direction, scoring 8 (MATCH) for city and country, 25 for city only, 60 for
country only, and 90 (NO_MATCH) for neither. -/
theorem C6_city_verifier_scoring (env : Env) (phone city country : String)
    (u : UserRecord) (hu : env.userData phone = some u) :
    (containsCI city u.kyc.locality ∧ (country = "" ∨ containsCI country u.kyc.country) →
      verify_device_location_by_city env phone city country =
        { scamScore := 8, verificationResult := "MATCH", status := "success" }) ∧
    (containsCI city u.kyc.locality ∧ ¬(country = "" ∨ containsCI country u.kyc.country) →
      verify_device_location_by_city env phone city country =
        { scamScore := 25, verificationResult := "CITY_MATCH", status := "success" }) ∧
    (¬containsCI city u.kyc.locality ∧ (country = "" ∨ containsCI country u.kyc.country) →
      verify_device_location_by_city env phone city country =
        { scamScore := 60, verificationResult := "COUNTRY_MATCH", status := "success" }) ∧
    (¬containsCI city u.kyc.locality ∧ ¬(country = "" ∨ containsCI country u.kyc.country) →
      verify_device_location_by_city env phone city country =
        { scamScore := 90, verificationResult := "NO_MATCH", status := "success" }) := by
  refine ⟨fun ⟨h1, h2⟩ => ?_, fun ⟨h1, h2⟩ => ?_, fun ⟨h1, h2⟩ => ?_, fun ⟨h1, h2⟩ => ?_⟩
  · have b1 := (cityBool_iff city u.kyc.locality).mpr h1
    have b2 := (countryBool_iff country u.kyc.country).mpr h2
    simp [verify_device_location_by_city, hu, b1, b2]
  · have b1 := (cityBool_iff city u.kyc.locality).mpr h1
    have b2 : (if country = "" then true
        else strIn (pyLower country) (pyLower u.kyc.country) ||
          strIn (pyLower u.kyc.country) (pyLower country)) = false :=
      Bool.not_eq_true _ |>.mp fun hb => h2 ((countryBool_iff country u.kyc.country).mp hb)
    simp [verify_device_location_by_city, hu, b1, b2]
  · have b1 : (strIn (pyLower city) (pyLower u.kyc.locality) ||
        strIn (pyLower u.kyc.locality) (pyLower city)) = false :=
      Bool.not_eq_true _ |>.mp fun hb => h1 ((cityBool_iff city u.kyc.locality).mp hb)
    have b2 := (countryBool_iff country u.kyc.country).mpr h2
    simp [verify_device_location_by_city, hu, b1, b2]
  · have b1 : (strIn (pyLower city) (pyLower u.kyc.locality) ||
        strIn (pyLower u.kyc.locality) (pyLower city)) = false :=
      Bool.not_eq_true _ |>.mp fun hb => h1 ((cityBool_iff city u.kyc.locality).mp hb)
    have b2 : (if country = "" then true
        else strIn (pyLower country) (pyLower u.kyc.country) ||
          strIn (pyLower u.kyc.country) (pyLower country)) = false :=
      Bool.not_eq_true _ |>.mp fun hb => h2 ((countryBool_iff country u.kyc.country).mp hb)
    simp [verify_device_location_by_city, hu, b1, b2]

/-- Witness for C6 at a concrete record and claim. -/
theorem C6_city_verifier_scoring_witness :
    verify_device_location_by_city
      ⟨fun p => if p = "+40712345678" then
          some { kyc := { locality := "Sibiu", country := "Romania" } } else none, none⟩
      "+40712345678" "sibiu" "romania" =
      { scamScore := 8, verificationResult := "MATCH", status := "success" } :=
  (C6_city_verifier_scoring
      ⟨fun p => if p = "+40712345678" then
          some { kyc := { locality := "Sibiu", country := "Romania" } } else none, none⟩
      "+40712345678" "sibiu" "romania" { kyc := { locality := "Sibiu", country := "Romania" } }
      (by decide)).1
    ⟨Or.inl (by decide), Or.inr (Or.inl (by decide))⟩

/-- Claim C9: for every phone whose record exists but stores an empty (or
missing) KYC locality, the city verifier always reports a city match, hence
never returns 90; if the stored country is also empty it returns MATCH with
score 8 for every claimed city and country. -/
theorem C9_empty_locality_never_no_match (env : Env) (phone city country : String)
    (u : UserRecord) (hu : env.userData phone = some u) (hloc : u.kyc.locality = "") :
    ((verify_device_location_by_city env phone city country).scamScore = 8 ∨
      (verify_device_location_by_city env phone city country).scamScore = 25) ∧
    (verify_device_location_by_city env phone city country).scamScore ≠ 90 ∧
    (u.kyc.country = "" →
      (verify_device_location_by_city env phone city country).scamScore = 8 ∧
      (verify_device_location_by_city env phone city country).verificationResult = "MATCH") := by
  have hempty : pyLower u.kyc.locality = "" := by rw [hloc]; rfl
  have b1 : (strIn (pyLower city) (pyLower u.kyc.locality) ||
      strIn (pyLower u.kyc.locality) (pyLower city)) = true := by
    rw [hempty, strIn_empty_left, Bool.or_true]
  refine ⟨?_, ?_, ?_⟩
  · unfold verify_device_location_by_city
    rw [hu]
    simp only [b1, Bool.true_and]
    split_ifs <;> simp
  · unfold verify_device_location_by_city
    rw [hu]
    simp only [b1, Bool.true_and]
    split_ifs <;> simp
  · intro hco
    have hcoempty : pyLower u.kyc.country = "" := by rw [hco]; rfl
    have b2 : (if country = "" then true
        else strIn (pyLower country) (pyLower u.kyc.country) ||
          strIn (pyLower u.kyc.country) (pyLower country)) = true := by
      split_ifs with h
      · rfl
      · rw [hcoempty, strIn_empty_left, Bool.or_true]
    unfold verify_device_location_by_city
    rw [hu]
    simp [b1, b2]

/-- Witness for C9 at a concrete record with empty locality and country. -/
theorem C9_empty_locality_never_no_match_witness :
    ((verify_device_location_by_city
        ⟨fun p => if p = "+40700000001" then some { kyc := { name := "Dan Pop" } } else none,
          none⟩ "+40700000001" "Cluj" "France").scamScore = 8 ∨
      (verify_device_location_by_city
        ⟨fun p => if p = "+40700000001" then some { kyc := { name := "Dan Pop" } } else none,
          none⟩ "+40700000001" "Cluj" "France").scamScore = 25) ∧
    (verify_device_location_by_city
        ⟨fun p => if p = "+40700000001" then some { kyc := { name := "Dan Pop" } } else none,
          none⟩ "+40700000001" "Cluj" "France").scamScore ≠ 90 ∧
    ({ kyc := { name := "Dan Pop" } : UserRecord }.kyc.country = "" →
      (verify_device_location_by_city
        ⟨fun p => if p = "+40700000001" then some { kyc := { name := "Dan Pop" } } else none,
          none⟩ "+40700000001" "Cluj" "France").scamScore = 8 ∧
      (verify_device_location_by_city
        ⟨fun p => if p = "+40700000001" then some { kyc := { name := "Dan Pop" } } else none,
          none⟩ "+40700000001" "Cluj" "France").verificationResult = "MATCH") :=
  C9_empty_locality_never_no_match
    ⟨fun p => if p = "+40700000001" then some { kyc := { name := "Dan Pop" } } else none, none⟩
    "+40700000001" "Cluj" "France" { kyc := { name := "Dan Pop" } } (by decide) (by decide)

/-- Every score emitted by the city verifier lies in [1,100]. -/
theorem cityVerif_score_bounds (env : Env) (phone city country : String) :
    1 ≤ (verify_device_location_by_city env phone city country).scamScore ∧
      (verify_device_location_by_city env phone city country).scamScore ≤ 100 := by
  unfold verify_device_location_by_city
  cases env.userData phone with
  | none => simp
  | some u => simp only []; split_ifs <;> simp

/-- Every score in the location step lies in [1,100]. -/
theorem locationStep_score_bounds (env : Env) (phone loc country : String) :
    1 ≤ (locationStep env phone loc country).1 ∧ (locationStep env phone loc country).1 ≤ 100 := by
  unfold locationStep
  split_ifs with h
  · simp
  · exact cityVerif_score_bounds env phone loc country

/-- Every score an `.ok` result of the company branch carries lies in
[1,100]. -/
theorem companyBranchInner_score_bounds (env : Env) (cp cn cc : String) (fs : List String)
    (s : ℕ) (fs2 : List String)
    (h : companyBranchInner env cp cn cc fs = .ok (s, fs2)) : 1 ≤ s ∧ s ≤ 100 := by
  unfold companyBranchInner at h
  split at h
  · split_ifs at h
    · split at h
      · dsimp only at h
        split_ifs at h <;> simp only [Except.ok.injEq, Prod.mk.injEq] at h <;> omega
      · simp only [Except.ok.injEq, Prod.mk.injEq] at h
        omega
  · simp only [Except.ok.injEq, Prod.mk.injEq] at h
    omega

/-- Every score of the company step lies in [1,100]. -/
theorem companyStep_score_bounds (env : Env) (cp cn cc : String) (fs : List String) :
    1 ≤ (companyStep env cp cn cc fs).1 ∧ (companyStep env cp cn cc fs).1 ≤ 100 := by
  unfold companyStep
  split_ifs with h
  · simp
  · rcases hi : companyBranchInner env cp cn cc fs with e | ⟨s, fs2⟩
    · simp
    · simpa using companyBranchInner_score_bounds env cp cn cc fs s fs2 hi

/-- Every score of the KYC step lies in [1,100]. -/
theorem kycStep_score_bounds (env : Env) (phone name addr : String) :
    1 ≤ (kycStep env phone name addr).1 ∧ (kycStep env phone name addr).1 ≤ 100 := by
  simp only [kycStep]
  split_ifs <;> simp [sup_le_iff]

/-- The clamped aggregate lies in [1,100] for any component scores. -/
theorem overallFromScores_bounds (l c k : ℕ) :
    1 ≤ overallFromScores l c k ∧ overallFromScores l c k ≤ 100 := by
  simp only [overallFromScores]
  have h1 : (1 : ℤ) ≤ max 1 (min 100 (dyTruncToInt (dyDiv (pyWeighted l c k) pyTotalWeight))) :=
    le_max_left _ _
  have h2 : max 1 (min 100 (dyTruncToInt (dyDiv (pyWeighted l c k) pyTotalWeight))) ≤ 100 :=
    max_le (by norm_num) (min_le_left _ _)
  omega

/-- Claim C5: for every environment, extracted-data dictionary and caller
phone, the verdict's overall score and all three component scores lie in
[1,100]. -/
theorem C5_verdict_scores_in_range (env : Env) (extracted_data : ExtractedData)
    (caller_phone : String) :
    1 ≤ (detect_fraud env extracted_data caller_phone).overall_scam_score ∧
    (detect_fraud env extracted_data caller_phone).overall_scam_score ≤ 100 ∧
    1 ≤ (detect_fraud env extracted_data caller_phone).location_score ∧
    (detect_fraud env extracted_data caller_phone).location_score ≤ 100 ∧
    1 ≤ (detect_fraud env extracted_data caller_phone).company_score ∧
    (detect_fraud env extracted_data caller_phone).company_score ≤ 100 ∧
    1 ≤ (detect_fraud env extracted_data caller_phone).kyc_score ∧
    (detect_fraud env extracted_data caller_phone).kyc_score ≤ 100 := by
  have hl := locationStep_score_bounds env caller_phone
    (pyOr extracted_data.locality extracted_data.location) extracted_data.country
  have hc := companyStep_score_bounds env caller_phone extracted_data.name
    (pyOr extracted_data.companyName extracted_data.company) []
  have hk := kycStep_score_bounds env caller_phone extracted_data.name
    extracted_data.address
  have ho := overallFromScores_bounds
    (locationStep env caller_phone
      (pyOr extracted_data.locality extracted_data.location) extracted_data.country).1
    (companyStep env caller_phone extracted_data.name
      (pyOr extracted_data.companyName extracted_data.company) []).1
    (kycStep env caller_phone extracted_data.name extracted_data.address).1
  exact ⟨ho.1, ho.2, hl.1, hl.2, hc.1, hc.2, hk.1, hk.2⟩

/-! ### Properties of the dyadic float model -/

theorem dyVal_pos (x : Dy) (hm : 0 < x.m) : 0 < dyVal x :=
  mul_pos (by exact_mod_cast hm) (zpow_pos (by norm_num) _)

theorem zpow_toNat_mul (e1 e2 : ℤ) (h : e1 ≤ e2) :
    ((2 : ℚ) ^ (e2 - e1).toNat) * (2 : ℚ) ^ e1 = (2 : ℚ) ^ e2 := by
  rw [← zpow_natCast (2 : ℚ) (e2 - e1).toNat, Int.toNat_of_nonneg (by omega),
    ← zpow_add₀ (by norm_num : (2 : ℚ) ≠ 0)]
  congr 1
  omega

theorem dyVal_dyAdd (a b : Dy) : dyVal (dyAdd a b) = dyVal a + dyVal b := by
  unfold dyAdd dyVal
  split_ifs with h <;> push_cast
  · rw [add_mul, mul_assoc, zpow_toNat_mul a.e b.e h]
  · rw [add_mul, mul_assoc, zpow_toNat_mul b.e a.e (by omega)]

theorem dyVal_dyMulNat (n : ℕ) (x : Dy) : dyVal (dyMulNat n x) = (n : ℚ) * dyVal x := by
  unfold dyMulNat dyVal
  push_cast
  ring

theorem bitLenAux_zero (f : ℕ) : bitLenAux f 0 = 0 := by cases f <;> rfl

theorem bitLenAux_spec (f : ℕ) : ∀ n : ℕ, 0 < n → n < 2 ^ f →
    2 ^ (bitLenAux f n - 1) ≤ n ∧ n < 2 ^ bitLenAux f n := by
  induction f with
  | zero => intro n h0 h1; simp at h1; omega
  | succ f ih =>
    intro n h0 h1
    rw [bitLenAux, if_neg (by omega)]
    by_cases h2 : n = 1
    · subst h2
      norm_num [bitLenAux_zero]
    · have hn2 : 0 < n / 2 := by omega
      have hp : (2 : ℕ) ^ (f + 1) = 2 * 2 ^ f := by ring
      have hlt : n / 2 < 2 ^ f := by omega
      obtain ⟨ih1, ih2⟩ := ih (n / 2) hn2 hlt
      have hL1 : 1 ≤ bitLenAux f (n / 2) := by
        by_contra hcon
        have hz : bitLenAux f (n / 2) = 0 := by omega
        rw [hz] at ih2
        simp at ih2
        omega
      set L := bitLenAux f (n / 2) with hLdef
      have hq1 : 2 ^ L = 2 * 2 ^ (L - 1) := by
        conv_lhs => rw [show L = (L - 1) + 1 by omega]
        ring
      have hq2 : 2 ^ (L + 1) = 2 * 2 ^ L := by ring
      constructor
      · simp only [Nat.add_sub_cancel]
        omega
      · omega

theorem bitLen_spec (n : ℕ) (h0 : 0 < n) (hsz : n < 2 ^ 128) :
    2 ^ (bitLen n - 1) ≤ n ∧ n < 2 ^ bitLen n := bitLenAux_spec 128 n h0 hsz

theorem bitLen_le (n f : ℕ) (hsz : n < 2 ^ 128) (h : n < 2 ^ f) : bitLen n ≤ f := by
  rcases Nat.eq_zero_or_pos n with h0 | h0
  · rw [h0, bitLen, bitLenAux_zero]
    omega
  · obtain ⟨h1, _⟩ := bitLen_spec n h0 hsz
    by_contra hcon
    have hff : f ≤ bitLen n - 1 := by omega
    have : (2 : ℕ) ^ f ≤ 2 ^ (bitLen n - 1) := Nat.pow_le_pow_right (by norm_num) hff
    omega

theorem flD_of_le (x : Dy) (hm : 0 < x.m) (hL : bitLen x.m.toNat ≤ 53) : flD x = x := by
  unfold flD
  rw [if_neg (by omega)]
  dsimp only
  rw [if_pos hL]

theorem flD_val_close (x : Dy) (hm : 0 < x.m) (hsz : x.m < 2 ^ 128) :
    |dyVal (flD x) - dyVal x| ≤ dyVal x / 2 ^ 53 := by
  have hvpos := dyVal_pos x hm
  by_cases hL : bitLen x.m.toNat ≤ 53
  · rw [flD_of_le x hm hL, sub_self, abs_zero]
    positivity
  · set n := x.m.toNat with hn
    have hnm : (n : ℤ) = x.m := Int.toNat_of_nonneg hm.le
    have hn0 : 0 < n := by omega
    have hn128 : n < 2 ^ 128 := by
      have hcast : ((2 ^ 128 : ℕ) : ℤ) = 2 ^ 128 := by norm_num
      omega
    obtain ⟨hb1, hb2⟩ := bitLen_spec n hn0 hn128
    set L := bitLen n with hLdef
    have hL54 : 54 ≤ L := by omega
    set s := L - 53 with hsdef
    have hs1 : 1 ≤ s := by omega
    set q := n / 2 ^ s with hq
    set r := n % 2 ^ s with hrdef
    set m' : ℕ := (if r < 2 ^ (s - 1) then q
        else if 2 ^ (s - 1) < r then q + 1
        else if 2 ∣ q then q else q + 1) with hm'
    have hflD : flD x = ⟨(m' : ℤ), x.e + (s : ℤ)⟩ := by
      unfold flD
      rw [if_neg (by omega)]
      dsimp only
      rw [if_neg hL]
    have hmq : 2 ^ s * q + r = n := Nat.div_add_mod n (2 ^ s)
    have hr2 : r < 2 ^ s := Nat.mod_lt _ (pow_pos (by norm_num) _)
    have hhalf : (2 : ℕ) ^ s = 2 * 2 ^ (s - 1) := by
      conv_lhs => rw [show s = (s - 1) + 1 by omega]
      ring
    have hmqz : (2 : ℤ) ^ s * (q : ℤ) + (r : ℤ) = (n : ℤ) := by exact_mod_cast hmq
    have hrz : (r : ℤ) < 2 ^ s := by exact_mod_cast hr2
    have hhz : (2 : ℤ) ^ s = 2 * 2 ^ (s - 1) := by exact_mod_cast hhalf
    have hkey : -(2 ^ (s - 1) : ℤ) ≤ (m' : ℤ) * 2 ^ s - (n : ℤ) ∧
        (m' : ℤ) * 2 ^ s - (n : ℤ) ≤ 2 ^ (s - 1) := by
      rw [hm']
      split_ifs with h1 h2 h3
      · have h1z : (r : ℤ) < 2 ^ (s - 1) := by exact_mod_cast h1
        constructor <;> linarith
      · have h2z : (2 : ℤ) ^ (s - 1) < (r : ℤ) := by exact_mod_cast h2
        constructor <;> push_cast <;> linarith

      · have h3z : (r : ℤ) = 2 ^ (s - 1) := by
          have : r = 2 ^ (s - 1) := by omega
          exact_mod_cast this
        constructor <;> linarith
      · have h3z : (r : ℤ) = 2 ^ (s - 1) := by
          have : r = 2 ^ (s - 1) := by omega
          exact_mod_cast this
        constructor <;> push_cast <;> linarith
    have hP : (0 : ℚ) < (2 : ℚ) ^ x.e := zpow_pos (by norm_num) _
    have hsplit : (2 : ℚ) ^ (x.e + (s : ℤ)) = (2 : ℚ) ^ x.e * ((2 ^ s : ℕ) : ℚ) := by
      push_cast
      rw [zpow_add₀ (by norm_num : (2 : ℚ) ≠ 0), zpow_natCast]
    have hdiff : dyVal (flD x) - dyVal x =
        ((m' : ℚ) * ((2 ^ s : ℕ) : ℚ) - (n : ℚ)) * (2 : ℚ) ^ x.e := by
      rw [hflD]
      unfold dyVal
      dsimp only
      rw [hsplit, ← hnm]
      push_cast
      ring
    have habs : |dyVal (flD x) - dyVal x| ≤ ((2 ^ (s - 1) : ℕ) : ℚ) * (2 : ℚ) ^ x.e := by
      rw [hdiff, abs_mul, abs_of_pos hP]
      apply mul_le_mul_of_nonneg_right _ hP.le
      rw [abs_le]
      constructor
      · exact_mod_cast hkey.1
      · exact_mod_cast hkey.2
    refine habs.trans ?_
    rw [le_div_iff₀ (by norm_num : (0 : ℚ) < 2 ^ 53)]
    have hLs : ((2 ^ (s - 1) : ℕ) : ℚ) * 2 ^ 53 = ((2 ^ (L - 1) : ℕ) : ℚ) := by
      push_cast
      rw [show L - 1 = (s - 1) + 53 by omega]
      ring
    have hge : ((2 ^ (L - 1) : ℕ) : ℚ) ≤ (n : ℚ) := by exact_mod_cast hb1
    have hxval : dyVal x = (n : ℚ) * (2 : ℚ) ^ x.e := by
      unfold dyVal
      rw [← hnm]
      push_cast
      ring
    calc ((2 ^ (s - 1) : ℕ) : ℚ) * (2 : ℚ) ^ x.e * 2 ^ 53
        = ((2 ^ (s - 1) : ℕ) : ℚ) * 2 ^ 53 * (2 : ℚ) ^ x.e := by ring
      _ = ((2 ^ (L - 1) : ℕ) : ℚ) * (2 : ℚ) ^ x.e := by rw [hLs]
      _ ≤ (n : ℚ) * (2 : ℚ) ^ x.e := mul_le_mul_of_nonneg_right hge hP.le
      _ = dyVal x := hxval.symm

theorem flD_m_pos (x : Dy) (hm : 0 < x.m) (hsz : x.m < 2 ^ 128) : 0 < (flD x).m := by
  by_cases hL : bitLen x.m.toNat ≤ 53
  · rw [flD_of_le x hm hL]
    exact hm
  · unfold flD
    rw [if_neg (by omega)]
    dsimp only
    rw [if_neg hL]
    dsimp only
    set n := x.m.toNat with hn
    have hn0 : 0 < n := by omega
    have hn128 : n < 2 ^ 128 := by
      have hcast : ((2 ^ 128 : ℕ) : ℤ) = 2 ^ 128 := by norm_num
      omega
    obtain ⟨hb1, hb2⟩ := bitLen_spec n hn0 hn128
    have hq1 : 1 ≤ n / 2 ^ (bitLen n - 53) := by
      rw [Nat.le_div_iff_mul_le (pow_pos (by norm_num) _)]
      have : (2 : ℕ) ^ (bitLen n - 53) ≤ 2 ^ (bitLen n - 1) :=
        Nat.pow_le_pow_right (by norm_num) (by omega)
      omega
    split_ifs <;> omega

theorem flD_m_le (x : Dy) (hm : 0 < x.m) (hsz : x.m < 2 ^ 128) : (flD x).m ≤ 2 ^ 53 := by
  by_cases hL : bitLen x.m.toNat ≤ 53
  · rw [flD_of_le x hm hL]
    set n := x.m.toNat with hn
    have hn0 : 0 < n := by omega
    have hn128 : n < 2 ^ 128 := by
      have hcast : ((2 ^ 128 : ℕ) : ℤ) = 2 ^ 128 := by norm_num
      omega
    obtain ⟨hb1, hb2⟩ := bitLen_spec n hn0 hn128
    have hle : (2 : ℕ) ^ bitLen n ≤ 2 ^ 53 := Nat.pow_le_pow_right (by norm_num) hL
    have hcast : ((2 ^ 53 : ℕ) : ℤ) = 2 ^ 53 := by norm_num
    omega
  · unfold flD
    rw [if_neg (by omega)]
    dsimp only
    rw [if_neg hL]
    dsimp only
    set n := x.m.toNat with hn
    have hn0 : 0 < n := by omega
    have hn128 : n < 2 ^ 128 := by
      have hcast : ((2 ^ 128 : ℕ) : ℤ) = 2 ^ 128 := by norm_num
      omega
    obtain ⟨hb1, hb2⟩ := bitLen_spec n hn0 hn128
    have hqlt : n / 2 ^ (bitLen n - 53) < 2 ^ 53 := by
      rw [Nat.div_lt_iff_lt_mul (pow_pos (by norm_num) _)]
      have heq : (2 : ℕ) ^ 53 * 2 ^ (bitLen n - 53) = 2 ^ bitLen n := by
        rw [← pow_add]
        congr 1
        omega
      omega
    split_ifs with h1 h2 h3
    · exact_mod_cast Nat.le_of_lt hqlt
    · exact_mod_cast hqlt
    · exact_mod_cast Nat.le_of_lt hqlt
    · exact_mod_cast hqlt

theorem flD_e_lower (x : Dy) (hm : 0 < x.m) : x.e ≤ (flD x).e := by
  unfold flD
  rw [if_neg (by omega)]
  dsimp only
  split_ifs <;> first
    | omega
    | (dsimp only; omega)

theorem flD_e_upper (x : Dy) (hm : 0 < x.m) (f : ℕ) (hf : 54 ≤ f) (hf128 : f ≤ 128)
    (hlt : x.m.toNat < 2 ^ f) : (flD x).e ≤ x.e + (f : ℤ) - 53 := by
  have hsz : x.m < 2 ^ 128 := by
    have h1 : (2 : ℕ) ^ f ≤ 2 ^ 128 := Nat.pow_le_pow_right (by norm_num) hf128
    have hcast : ((2 ^ 128 : ℕ) : ℤ) = 2 ^ 128 := by norm_num
    omega
  have hbl : bitLen x.m.toNat ≤ f := bitLen_le _ _ (by omega) hlt
  unfold flD
  rw [if_neg (by omega)]
  dsimp only
  split_ifs with hL <;> first
    | omega
    | (dsimp only; omega)

theorem dyAdd_bounds (a b : Dy) (g : ℕ)
    (ha0 : 0 < a.m) (ha : a.m ≤ 2 ^ 53) (hb0 : 0 < b.m) (hb : b.m ≤ 2 ^ 53)
    (hg1 : a.e - b.e ≤ (g : ℤ)) (hg2 : b.e - a.e ≤ (g : ℤ)) :
    0 < (dyAdd a b).m ∧ (dyAdd a b).m ≤ 2 ^ 53 + 2 ^ 53 * 2 ^ g ∧
      min a.e b.e ≤ (dyAdd a b).e ∧ (dyAdd a b).e ≤ max a.e b.e := by
  unfold dyAdd
  split_ifs with h <;> dsimp only
  · have ht : (b.e - a.e).toNat ≤ g := by omega
    have hp : (0 : ℤ) < 2 ^ (b.e - a.e).toNat := pow_pos (by norm_num) _
    have hpl : (2 : ℤ) ^ (b.e - a.e).toNat ≤ 2 ^ g :=
      pow_le_pow_right₀ (by norm_num) ht
    have hmul : b.m * 2 ^ (b.e - a.e).toNat ≤ 2 ^ 53 * 2 ^ g :=
      mul_le_mul hb hpl hp.le (by positivity)
    have hmulpos : 0 < b.m * 2 ^ (b.e - a.e).toNat := mul_pos hb0 hp
    refine ⟨by omega, by omega, ?_, ?_⟩ <;> omega
  · have ht : (a.e - b.e).toNat ≤ g := by omega
    have hp : (0 : ℤ) < 2 ^ (a.e - b.e).toNat := pow_pos (by norm_num) _
    have hpl : (2 : ℤ) ^ (a.e - b.e).toNat ≤ 2 ^ g :=
      pow_le_pow_right₀ (by norm_num) ht
    have hmul : a.m * 2 ^ (a.e - b.e).toNat ≤ 2 ^ 53 * 2 ^ g :=
      mul_le_mul ha hpl hp.le (by positivity)
    have hmulpos : 0 < a.m * 2 ^ (a.e - b.e).toNat := mul_pos ha0 hp
    refine ⟨by omega, by omega, ?_, ?_⟩ <;> omega

/-- `total_weight = sum(weights)` evaluates to the double 1.0 exactly:
the two rounded additions produce mantissa `2 ^ 53` at exponent `-53`. -/
theorem pyTotalWeight_eq : pyTotalWeight = ⟨9007199254740992, -53⟩ := by decide

theorem dyDiv_pyTotalWeight (a : Dy) : dyDiv a pyTotalWeight = flD a := by
  rw [pyTotalWeight_eq]
  unfold dyDiv
  rw [if_pos (by decide)]
  have h53 : (bitLen (Int.toNat (9007199254740992 : ℤ)) - 1 : ℕ) = 53 := by decide
  dsimp only
  rw [h53]
  norm_num

theorem dyTruncToInt_eq_floor (x : Dy) (hm : 0 ≤ x.m) : dyTruncToInt x = ⌊dyVal x⌋ := by
  unfold dyTruncToInt dyVal
  split_ifs with h1
  · have hcast : ((x.m * 2 ^ x.e.toNat : ℤ) : ℚ) = (x.m : ℚ) * (2 : ℚ) ^ x.e.toNat := by
      push_cast
      ring
    conv_rhs => rw [← Int.toNat_of_nonneg h1, zpow_natCast, ← hcast, Int.floor_intCast]
  · have hneg : x.e = -(((-x.e).toNat : ℕ) : ℤ) := by omega
    have hval : (x.m : ℚ) * (2 : ℚ) ^ x.e = (x.m : ℚ) / (((2 ^ (-x.e).toNat : ℕ) : ℕ) : ℚ) := by
      conv_lhs => rw [hneg]
      rw [zpow_neg, zpow_natCast, div_eq_mul_inv]
      push_cast
      ring
    rw [hval, Rat.floor_intCast_div_natCast]
    push_cast
    ring

theorem dyVal_w3 : dyVal w3Dy = 5404319552844595 / 18014398509481984 := by
  unfold dyVal w3Dy
  rw [show ((-54 : ℤ)) = -(54 : ℤ) by norm_num, zpow_neg]
  norm_num

theorem dyVal_w4 : dyVal w4Dy = 3602879701896397 / 9007199254740992 := by
  unfold dyVal w4Dy
  rw [show ((-53 : ℤ)) = -(53 : ℤ) by norm_num, zpow_neg]
  norm_num

theorem flD_pack (x : Dy) (f : ℕ) (hf : 54 ≤ f) (hf128 : f ≤ 128)
    (hm : 0 < x.m) (hlt : x.m.toNat < 2 ^ f) :
    0 < (flD x).m ∧ (flD x).m ≤ 2 ^ 53 ∧ x.e ≤ (flD x).e ∧
      (flD x).e ≤ x.e + (f : ℤ) - 53 ∧
      |dyVal (flD x) - dyVal x| ≤ dyVal x / 2 ^ 53 := by
  have hsz : x.m < 2 ^ 128 := by
    have h1 : (2 : ℕ) ^ f ≤ 2 ^ 128 := Nat.pow_le_pow_right (by norm_num) hf128
    have hcast : ((2 ^ 128 : ℕ) : ℤ) = 2 ^ 128 := by norm_num
    omega
  exact ⟨flD_m_pos x hm hsz, flD_m_le x hm hsz, flD_e_lower x hm,
    flD_e_upper x hm f hf hf128 hlt, flD_val_close x hm hsz⟩

theorem pyWeighted_close (l c k : ℕ) (hl1 : 1 ≤ l) (hl2 : l ≤ 100)
    (hc1 : 1 ≤ c) (hc2 : c ≤ 100) (hk1 : 1 ≤ k) (hk2 : k ≤ 100) :
    |dyVal (flD (pyWeighted l c k)) - (3 * l + 4 * c + 3 * k : ℚ) / 10| ≤ 1 / 1000 ∧
      0 < (flD (pyWeighted l c k)).m ∧ 0 ≤ (pyWeighted l c k).m := by
  have hlq1 : (1 : ℚ) ≤ (l : ℚ) := by exact_mod_cast hl1
  have hlq2 : (l : ℚ) ≤ 100 := by exact_mod_cast hl2
  have hcq1 : (1 : ℚ) ≤ (c : ℚ) := by exact_mod_cast hc1
  have hcq2 : (c : ℚ) ≤ 100 := by exact_mod_cast hc2
  have hkq1 : (1 : ℚ) ≤ (k : ℚ) := by exact_mod_cast hk1
  have hkq2 : (k : ℚ) ≤ 100 := by exact_mod_cast hk2
  have hlz1 : (1 : ℤ) ≤ (l : ℤ) := by exact_mod_cast hl1
  have hlz2 : (l : ℤ) ≤ 100 := by exact_mod_cast hl2
  have hcz1 : (1 : ℤ) ≤ (c : ℤ) := by exact_mod_cast hc1
  have hcz2 : (c : ℤ) ≤ 100 := by exact_mod_cast hc2
  have hkz1 : (1 : ℤ) ≤ (k : ℤ) := by exact_mod_cast hk1
  have hkz2 : (k : ℤ) ≤ 100 := by exact_mod_cast hk2
  -- exact products fed to the first three roundings
  have hx1m : (dyMulNat l w3Dy).m = (l : ℤ) * 5404319552844595 := rfl
  have hx1e : (dyMulNat l w3Dy).e = -54 := rfl
  have hx2m : (dyMulNat c w4Dy).m = (c : ℤ) * 3602879701896397 := rfl
  have hx2e : (dyMulNat c w4Dy).e = -53 := rfl
  have hx3m : (dyMulNat k w3Dy).m = (k : ℤ) * 5404319552844595 := rfl
  have hx3e : (dyMulNat k w3Dy).e = -54 := rfl
  have hx1pos : 0 < (dyMulNat l w3Dy).m := by rw [hx1m]; positivity
  have hx2pos : 0 < (dyMulNat c w4Dy).m := by rw [hx2m]; positivity
  have hx3pos : 0 < (dyMulNat k w3Dy).m := by rw [hx3m]; positivity
  have hx1lt : (dyMulNat l w3Dy).m.toNat < 2 ^ 60 := by rw [hx1m]; omega
  have hx2lt : (dyMulNat c w4Dy).m.toNat < 2 ^ 60 := by rw [hx2m]; omega
  have hx3lt : (dyMulNat k w3Dy).m.toNat < 2 ^ 60 := by rw [hx3m]; omega
  obtain ⟨p1, q1, r1, s1, e1⟩ :=
    flD_pack (dyMulNat l w3Dy) 60 (by norm_num) (by norm_num) hx1pos hx1lt
  obtain ⟨p2, q2, r2, s2, e2⟩ :=
    flD_pack (dyMulNat c w4Dy) 60 (by norm_num) (by norm_num) hx2pos hx2lt
  obtain ⟨p3, q3, r3, s3, e3⟩ :=
    flD_pack (dyMulNat k w3Dy) 60 (by norm_num) (by norm_num) hx3pos hx3lt
  rw [hx1e] at r1 s1
  rw [hx2e] at r2 s2
  rw [hx3e] at r3 s3
  -- first rounded sum
  obtain ⟨a12pos, a12le, a12elo, a12ehi⟩ :=
    dyAdd_bounds (flD (dyMulNat l w3Dy)) (flD (dyMulNat c w4Dy)) 8 p1 q1 p2 q2
      (by omega) (by omega)
  have ha12lt : (dyAdd (flD (dyMulNat l w3Dy)) (flD (dyMulNat c w4Dy))).m.toNat < 2 ^ 62 := by
    omega
  obtain ⟨ps1, qs1, rs1, ss1, es1⟩ :=
    flD_pack (dyAdd (flD (dyMulNat l w3Dy)) (flD (dyMulNat c w4Dy))) 62
      (by norm_num) (by norm_num) a12pos ha12lt
  -- second rounded sum
  obtain ⟨a3pos, a3le, a3elo, a3ehi⟩ :=
    dyAdd_bounds (flD (dyAdd (flD (dyMulNat l w3Dy)) (flD (dyMulNat c w4Dy))))
      (flD (dyMulNat k w3Dy)) 17 ps1 qs1 p3 q3 (by omega) (by omega)
  have ha3lt : (dyAdd (flD (dyAdd (flD (dyMulNat l w3Dy)) (flD (dyMulNat c w4Dy))))
      (flD (dyMulNat k w3Dy))).m.toNat < 2 ^ 71 := by
    omega
  obtain ⟨pws, qws, rws, sws, ews⟩ :=
    flD_pack (dyAdd (flD (dyAdd (flD (dyMulNat l w3Dy)) (flD (dyMulNat c w4Dy))))
      (flD (dyMulNat k w3Dy))) 71 (by norm_num) (by norm_num) a3pos ha3lt
  -- the final rounding performed by the division by total_weight = 1.0
  have hwslt : (flD (dyAdd (flD (dyAdd (flD (dyMulNat l w3Dy)) (flD (dyMulNat c w4Dy))))
      (flD (dyMulNat k w3Dy)))).m.toNat < 2 ^ 54 := by
    omega
  obtain ⟨pfin, qfin, rfin, sfin, efin⟩ :=
    flD_pack (flD (dyAdd (flD (dyAdd (flD (dyMulNat l w3Dy)) (flD (dyMulNat c w4Dy))))
      (flD (dyMulNat k w3Dy)))) 54 (by norm_num) (by norm_num) pws hwslt
  -- value equations
  have hv1 : dyVal (dyMulNat l w3Dy) = (l : ℚ) * (5404319552844595 / 18014398509481984) := by
    rw [dyVal_dyMulNat, dyVal_w3]
  have hv2 : dyVal (dyMulNat c w4Dy) = (c : ℚ) * (3602879701896397 / 9007199254740992) := by
    rw [dyVal_dyMulNat, dyVal_w4]
  have hv3 : dyVal (dyMulNat k w3Dy) = (k : ℚ) * (5404319552844595 / 18014398509481984) := by
    rw [dyVal_dyMulNat, dyVal_w3]
  have va12 := dyVal_dyAdd (flD (dyMulNat l w3Dy)) (flD (dyMulNat c w4Dy))
  have va3 := dyVal_dyAdd (flD (dyAdd (flD (dyMulNat l w3Dy)) (flD (dyMulNat c w4Dy))))
    (flD (dyMulNat k w3Dy))
  rw [hv1] at e1
  rw [hv2] at e2
  rw [hv3] at e3
  rw [va12] at es1
  rw [va3] at ews
  rw [abs_le] at e1 e2 e3 es1 ews efin
  have hgoal : pyWeighted l c k =
      flD (dyAdd (flD (dyAdd (flD (dyMulNat l w3Dy)) (flD (dyMulNat c w4Dy))))
        (flD (dyMulNat k w3Dy))) := rfl
  rw [hgoal]
  refine ⟨?_, pfin, pws.le⟩
  rw [abs_le]
  constructor <;> linarith

/-- Claim C2 (amended): for component scores in [1,100] the overall score of
`detect_fraud` is the IEEE-754 double evaluation of
`location*0.30 + company*0.40 + kyc*0.30` divided by the (exactly 1.0) weight
total, truncated toward zero — not rounded to nearest — then clamped to
[1,100]. The truncated value lies within 1 below the exact
`(3l + 4c + 3k) / 10` and equals it whenever 10 does not divide
`3l + 4c + 3k`; and `detect_fraud`'s overall score is exactly this
aggregation of its three component scores. -/
theorem C2_weighted_aggregation_truncates (l c k : ℕ) (hl1 : 1 ≤ l) (hl2 : l ≤ 100)
    (hc1 : 1 ≤ c) (hc2 : c ≤ 100) (hk1 : 1 ≤ k) (hk2 : k ≤ 100) :
    overallFromScores l c k =
      (max 1 (min 100 (dyTruncToInt (dyDiv (pyWeighted l c k) pyTotalWeight)))).toNat ∧
    (((3 * l + 4 * c + 3 * k) / 10 : ℕ) : ℤ) - 1 ≤
      dyTruncToInt (dyDiv (pyWeighted l c k) pyTotalWeight) ∧
    dyTruncToInt (dyDiv (pyWeighted l c k) pyTotalWeight) ≤
      (((3 * l + 4 * c + 3 * k) / 10 : ℕ) : ℤ) ∧
    (¬ 10 ∣ (3 * l + 4 * c + 3 * k) →
      dyTruncToInt (dyDiv (pyWeighted l c k) pyTotalWeight) =
        (((3 * l + 4 * c + 3 * k) / 10 : ℕ) : ℤ)) ∧
    (∀ (env : Env) (extracted_data : ExtractedData) (caller_phone : String),
      (detect_fraud env extracted_data caller_phone).overall_scam_score =
        overallFromScores (detect_fraud env extracted_data caller_phone).location_score
          (detect_fraud env extracted_data caller_phone).company_score
          (detect_fraud env extracted_data caller_phone).kyc_score) := by
  obtain ⟨hclose, hfinpos, hwsnn⟩ := pyWeighted_close l c k hl1 hl2 hc1 hc2 hk1 hk2
  have hdiv : dyDiv (pyWeighted l c k) pyTotalWeight = flD (pyWeighted l c k) :=
    dyDiv_pyTotalWeight _
  have hfl : dyTruncToInt (dyDiv (pyWeighted l c k) pyTotalWeight) =
      ⌊dyVal (flD (pyWeighted l c k))⌋ := by
    rw [hdiv]
    exact dyTruncToInt_eq_floor _ hfinpos.le
  set M := (3 * l + 4 * c + 3 * k) / 10 with hMdef
  set J := (3 * l + 4 * c + 3 * k) % 10 with hJdef
  have hEdm : 10 * M + J = 3 * l + 4 * c + 3 * k := Nat.div_add_mod _ 10
  have hjlt : J < 10 := Nat.mod_lt _ (by norm_num)
  have hsum : 10 * (M : ℚ) + (J : ℚ) = 3 * (l : ℚ) + 4 * (c : ℚ) + 3 * (k : ℚ) := by
    exact_mod_cast hEdm
  have hJ0 : (0 : ℚ) ≤ (J : ℚ) := by positivity
  have hJ9 : (J : ℚ) ≤ 9 := by exact_mod_cast by omega
  have hMcast : (((M : ℤ) - 1 : ℤ) : ℚ) = (M : ℚ) - 1 := by push_cast; ring
  have hMcast2 : (((M : ℤ) + 1 : ℤ) : ℚ) = (M : ℚ) + 1 := by push_cast; ring
  have hMcast3 : (((M : ℤ) : ℤ) : ℚ) = (M : ℚ) := by push_cast; ring
  rw [abs_le] at hclose
  have hlow : (M : ℤ) - 1 ≤ ⌊dyVal (flD (pyWeighted l c k))⌋ := by
    apply Int.le_floor.mpr
    rw [hMcast]
    linarith
  have hhigh : ⌊dyVal (flD (pyWeighted l c k))⌋ ≤ (M : ℤ) := by
    have hlt : ⌊dyVal (flD (pyWeighted l c k))⌋ < (M : ℤ) + 1 := by
      apply Int.floor_lt.mpr
      rw [hMcast2]
      linarith
    omega
  refine ⟨rfl, by rw [hfl]; exact hlow, by rw [hfl]; exact hhigh, ?_, fun env ex ph => rfl⟩
  intro hndvd
  have hj1 : 1 ≤ J := by
    rcases Nat.eq_zero_or_pos J with h0 | h0
    · exact absurd (Nat.dvd_iff_mod_eq_zero.mpr h0) hndvd
    · exact h0
  have hj1q : (1 : ℚ) ≤ (J : ℚ) := by exact_mod_cast hj1
  rw [hfl]
  apply Int.floor_eq_iff.mpr
  constructor
  · rw [hMcast3]
    linarith
  · rw [hMcast3]
    linarith

/-- Counterexample to claim C2 as stated: with the verified-legitimate
environment below, `detect_fraud` produces component scores (8, 10, 1), whose
exact weighted sum is 6.7; the claimed rounding to the nearest integer gives
7, but the code truncates the float value and reports an overall score of
6. -/
theorem C2_rounded_claim_counterexample :
    (detect_fraud envLegit exLegit "+40777000111").location_score = 8 ∧
    (detect_fraud envLegit exLegit "+40777000111").company_score = 10 ∧
    (detect_fraud envLegit exLegit "+40777000111").kyc_score = 1 ∧
    (detect_fraud envLegit exLegit "+40777000111").overall_scam_score = 6 ∧
    specRoundedOverall 8 10 1 = 7 := by
  have e1 : pyOr exLegit.locality exLegit.location = "Sibiu" := by decide
  have e2 : pyOr exLegit.companyName exLegit.company = "TechCorp" := by decide
  have e3 : exLegit.name = "Ana Pop" := rfl
  have e4 : exLegit.country = "" := rfl
  have e5 : exLegit.address = "" := rfl
  have hsim : calculate_name_similarity "Ana Pop" "Ana Pop" = 1 := by
    simp [calculate_name_similarity]
  have hfind : find_company_by_name envLegit "TechCorp" =
      some { company_name := "TechCorp", company_phone := "+40211000000",
             company_employees := [{ name := "Ana Pop", phone := "+40777000111" }] } := by
    decide
  have hemp : find_employee_by_phone envLegit "+40777000111" =
      some { name := "Ana Pop", phone := "+40777000111" } := by decide
  have h45 : (4 / 5 : ℚ) ≤ calculate_name_similarity "Ana Pop" "Ana Pop" := by
    rw [hsim]
    norm_num
  have hcomp : companyStep envLegit "+40777000111" "Ana Pop" "TechCorp" [] =
      (10, ["Verified employee with name match"]) := by
    simp [companyStep, companyBranchInner, hfind, hemp, h45]
  have hloc : locationStep envLegit "+40777000111" "Sibiu" "" =
      (8, ["Location verified: Sibiu"]) := by decide
  have hkyc : kycStep envLegit "+40777000111" "Ana Pop" "" =
      (1, ["Strong KYC data match - low fraud risk"]) := by decide
  have hov : overallFromScores 8 10 1 = 6 := by decide
  refine ⟨?_, ?_, ?_, ?_, ?_⟩
  · rw [detect_fraud_location_eq, e1, e4, hloc]
  · rw [detect_fraud_company_eq, e2, e3, hcomp]
  · rw [detect_fraud_kyc_eq, e3, e5, hkyc]
  · rw [detect_fraud_overall_eq, e1, e2, e3, e4, e5, hloc, hcomp, hkyc]
    exact hov
  · have h36 : (3 * ((8 : ℕ) : ℚ) + 4 * ((10 : ℕ) : ℚ) + 3 * ((1 : ℕ) : ℚ)) / 10 + 1 / 2 =
        ((36 : ℤ) : ℚ) / ((5 : ℕ) : ℚ) := by norm_num
    have hr : round ((3 * ((8 : ℕ) : ℚ) + 4 * ((10 : ℕ) : ℚ) + 3 * ((1 : ℕ) : ℚ)) / 10) = 7 := by
      rw [round_eq, h36, Rat.floor_intCast_div_natCast]
      decide
    unfold specRoundedOverall
    rw [hr]
    decide

/-- Witness for C2 (amended) at the component triple (8, 10, 5). -/
theorem C2_weighted_aggregation_truncates_witness :
    overallFromScores 8 10 5 =
      (max 1 (min 100 (dyTruncToInt (dyDiv (pyWeighted 8 10 5) pyTotalWeight)))).toNat ∧
    (((3 * 8 + 4 * 10 + 3 * 5) / 10 : ℕ) : ℤ) - 1 ≤
      dyTruncToInt (dyDiv (pyWeighted 8 10 5) pyTotalWeight) ∧
    dyTruncToInt (dyDiv (pyWeighted 8 10 5) pyTotalWeight) ≤
      (((3 * 8 + 4 * 10 + 3 * 5) / 10 : ℕ) : ℤ) ∧
    (¬ 10 ∣ (3 * 8 + 4 * 10 + 3 * 5) →
      dyTruncToInt (dyDiv (pyWeighted 8 10 5) pyTotalWeight) =
        (((3 * 8 + 4 * 10 + 3 * 5) / 10 : ℕ) : ℤ)) ∧
    (∀ (env : Env) (extracted_data : ExtractedData) (caller_phone : String),
      (detect_fraud env extracted_data caller_phone).overall_scam_score =
        overallFromScores (detect_fraud env extracted_data caller_phone).location_score
          (detect_fraud env extracted_data caller_phone).company_score
          (detect_fraud env extracted_data caller_phone).kyc_score) :=
  C2_weighted_aggregation_truncates 8 10 5 (by decide) (by decide) (by decide) (by decide)
    (by decide) (by decide)

/-- Claim C1 (code bug): when the claimed organization resolves and the caller
phone equals the organization's official phone, line 124 sets the company
score to 95, but line 152 then reads the local `employee_data`, which that
branch never assigns; the resulting `UnboundLocalError` is caught by the
`except` of lines 161-163, which overwrites the score with 70.  The verdict
therefore carries company score 70, not the 95 the spec states. -/
theorem C1_official_phone_score_is_70_not_95 :
    companyBranchInner envOfficial "+40211000000" exOfficial.name "TechCorp" [] =
      .error (["Caller using company official phone number"],
        "cannot access local variable employee_data where it is not associated with a value") ∧
    (detect_fraud envOfficial exOfficial "+40211000000").company_score = 70 ∧
    (detect_fraud envOfficial exOfficial "+40211000000").company_score ≠ 95 ∧
    (detect_fraud envOfficial exOfficial "+40211000000").overall_scam_score = 74 ∧
    "Company verification failed: cannot access local variable employee_data where it is not associated with a value"
      ∈ (detect_fraud envOfficial exOfficial "+40211000000").risk_factors := by
  refine ⟨by rfl, by decide, by decide, by decide, by decide⟩

/-- Claim C10: every exception raised inside the company-verification `try:`
body is caught: the company sub-score becomes the fallback 70, the
explanatory risk factor is appended after those already recorded, and the
evaluation continues through the KYC step, producing a complete verdict whose
overall score aggregates the fallback — the exception does not propagate. -/
theorem C10_company_exception_caught (env : Env) (ex : ExtractedData) (ph : String)
    (fs : List String) (msg : String)
    (herr : companyBranchInner env ph ex.name (pyOr ex.companyName ex.company) [] =
      .error (fs, msg)) :
    (detect_fraud env ex ph).company_score = 70 ∧
    (detect_fraud env ex ph).risk_factors =
      (locationStep env ph (pyOr ex.locality ex.location) ex.country).2 ++
        (fs ++ ["Company verification failed: " ++ msg]) ++
        (kycStep env ph ex.name ex.address).2 ∧
    (detect_fraud env ex ph).kyc_score = (kycStep env ph ex.name ex.address).1 ∧
    (detect_fraud env ex ph).overall_scam_score =
      overallFromScores (detect_fraud env ex ph).location_score 70
        (kycStep env ph ex.name ex.address).1 := by
  have hne : pyOr ex.companyName ex.company ≠ "" := by
    intro h0
    rw [h0] at herr
    simp [companyBranchInner, find_company_by_name] at herr
  have hcs : companyStep env ph ex.name (pyOr ex.companyName ex.company) [] =
      (70, fs ++ ["Company verification failed: " ++ msg]) := by
    unfold companyStep
    rw [if_neg hne, herr]
  refine ⟨?_, ?_, detect_fraud_kyc_eq env ex ph, ?_⟩
  · rw [detect_fraud_company_eq, hcs]
  · rw [detect_fraud_factors_eq, hcs]
  · rw [detect_fraud_overall_eq, detect_fraud_location_eq, hcs]

/-- Witness for C10 at the concrete official-phone environment, where the
company branch raises `UnboundLocalError`. -/
theorem C10_company_exception_caught_witness :
    (detect_fraud envOfficial exOfficial "+40211000000").company_score = 70 ∧
    (detect_fraud envOfficial exOfficial "+40211000000").risk_factors =
      (locationStep envOfficial "+40211000000"
        (pyOr exOfficial.locality exOfficial.location) exOfficial.country).2 ++
        (["Caller using company official phone number"] ++
          ["Company verification failed: cannot access local variable employee_data where it is not associated with a value"]) ++
        (kycStep envOfficial "+40211000000" exOfficial.name exOfficial.address).2 ∧
    (detect_fraud envOfficial exOfficial "+40211000000").kyc_score =
      (kycStep envOfficial "+40211000000" exOfficial.name exOfficial.address).1 ∧
    (detect_fraud envOfficial exOfficial "+40211000000").overall_scam_score =
      overallFromScores (detect_fraud envOfficial exOfficial "+40211000000").location_score 70
        (kycStep envOfficial "+40211000000" exOfficial.name exOfficial.address).1 :=
  C10_company_exception_caught envOfficial exOfficial "+40211000000"
    ["Caller using company official phone number"]
    "cannot access local variable employee_data where it is not associated with a value"
    (by rfl)

/-- Claim C3 (amended): for valid coordinate-mode parameters and an available
device location at distance `dist`: when `0 < dist ≤ radius` the verifier
returns MATCH with score `max 1 (int(5 + (dist/radius)*10))`, which lies in
[1,15]; when `dist` exceeds both `2*radius` and `radius + accuracy` it
returns NO_MATCH with score `int(75 + min(dist/(10*radius), 1)*24)`, which
lies in [75,99].  The claim as written omits the `int()` truncation of both
scores and the accuracy guard on the NO_MATCH branch. -/
theorem C3_coordinate_mode_scoring (env : Env) (phone : String)
    (latitude longitude : ℚ) (radius : ℤ) (dist : ℚ) (u : UserRecord)
    (hlat1 : -90 ≤ latitude) (hlat2 : latitude ≤ 90)
    (hlon1 : -180 ≤ longitude) (hlon2 : longitude ≤ 180)
    (hr1 : 2000 ≤ radius) (hr2 : radius ≤ 200000)
    (hu : env.userData phone = some u) (hav : u.location.available = true) :
    (0 < dist → dist ≤ (radius : ℚ) →
      verify_device_location env phone latitude longitude radius dist =
        .ok { scamScore := max 1 (intTrunc (5 + dist / (radius : ℚ) * 10)),
              verificationResult := some "MATCH", status := "success" } ∧
      1 ≤ max 1 (intTrunc (5 + dist / (radius : ℚ) * 10)) ∧
      max 1 (intTrunc (5 + dist / (radius : ℚ) * 10)) ≤ 15) ∧
    ((radius : ℚ) * 2 < dist → ((radius + u.location.radius : ℤ) : ℚ) < dist →
      verify_device_location env phone latitude longitude radius dist =
        .ok { scamScore := intTrunc (75 + min (dist / ((radius : ℚ) * 10)) 1 * 24),
              verificationResult := some "NO_MATCH", status := "success" } ∧
      75 ≤ intTrunc (75 + min (dist / ((radius : ℚ) * 10)) 1 * 24) ∧
      intTrunc (75 + min (dist / ((radius : ℚ) * 10)) 1 * 24) ≤ 99) := by
  have hrq : (0 : ℚ) < (radius : ℚ) := by
    exact_mod_cast lt_of_lt_of_le (by norm_num) hr1
  constructor
  · intro hd1 hd2
    have h0 : 0 ≤ dist / (radius : ℚ) * 10 :=
      mul_nonneg (div_nonneg hd1.le hrq.le) (by norm_num)
    have hq5 : (5 : ℚ) ≤ 5 + dist / (radius : ℚ) * 10 := by linarith
    have hq15 : 5 + dist / (radius : ℚ) * 10 ≤ 15 := by
      have hdr : dist / (radius : ℚ) ≤ 1 := (div_le_one hrq).mpr hd2
      linarith
    have htr : intTrunc (5 + dist / (radius : ℚ) * 10) =
        ⌊5 + dist / (radius : ℚ) * 10⌋ := by
      unfold intTrunc
      rw [if_pos (by linarith)]
    have ht5 : (5 : ℤ) ≤ ⌊5 + dist / (radius : ℚ) * 10⌋ :=
      Int.le_floor.mpr (by exact_mod_cast hq5)
    have ht15 : ⌊5 + dist / (radius : ℚ) * 10⌋ ≤ 15 := by
      have h := (Int.floor_le (5 + dist / (radius : ℚ) * 10)).trans hq15
      exact_mod_cast h
    refine ⟨?_, le_max_left _ _, by rw [htr]; omega⟩
    unfold verify_device_location
    rw [if_neg (not_not.mpr ⟨hlat1, hlat2⟩), if_neg (not_not.mpr ⟨hlon1, hlon2⟩),
      if_neg (not_not.mpr ⟨hr1, hr2⟩)]
    simp only [hu]
    rw [if_neg (by simp [hav])]
    try dsimp only
    rw [if_pos hd2]
    try dsimp only
    have hcl : max 1 (min 100 (max 1 (intTrunc (5 + dist / (radius : ℚ) * 10)))) =
        max 1 (intTrunc (5 + dist / (radius : ℚ) * 10)) := by
      rw [htr]; omega
    rw [hcl]
  · intro hd1 hd2
    have hd0 : (0 : ℚ) < dist := by linarith
    have hm0 : (0 : ℚ) ≤ min (dist / ((radius : ℚ) * 10)) 1 :=
      le_min (div_nonneg hd0.le (by linarith)) (by norm_num)
    have hm1 : min (dist / ((radius : ℚ) * 10)) 1 ≤ 1 := min_le_right _ _
    have hq75 : (75 : ℚ) ≤ 75 + min (dist / ((radius : ℚ) * 10)) 1 * 24 := by linarith
    have hq99 : 75 + min (dist / ((radius : ℚ) * 10)) 1 * 24 ≤ 99 := by linarith
    have htr : intTrunc (75 + min (dist / ((radius : ℚ) * 10)) 1 * 24) =
        ⌊75 + min (dist / ((radius : ℚ) * 10)) 1 * 24⌋ := by
      unfold intTrunc
      rw [if_pos (by linarith)]
    have ht75 : (75 : ℤ) ≤ ⌊75 + min (dist / ((radius : ℚ) * 10)) 1 * 24⌋ :=
      Int.le_floor.mpr (by exact_mod_cast hq75)
    have ht99 : ⌊75 + min (dist / ((radius : ℚ) * 10)) 1 * 24⌋ ≤ 99 := by
      have h := (Int.floor_le (75 + min (dist / ((radius : ℚ) * 10)) 1 * 24)).trans hq99
      exact_mod_cast h
    have hn1 : ¬dist ≤ (radius : ℚ) := by push_neg; linarith
    have hn2 : ¬dist ≤ ((radius + u.location.radius : ℤ) : ℚ) := by push_neg; exact hd2
    have hn3 : ¬dist ≤ (radius : ℚ) * 2 := by push_neg; exact hd1
    refine ⟨?_, by rw [htr]; omega, by rw [htr]; omega⟩
    unfold verify_device_location
    rw [if_neg (not_not.mpr ⟨hlat1, hlat2⟩), if_neg (not_not.mpr ⟨hlon1, hlon2⟩),
      if_neg (not_not.mpr ⟨hr1, hr2⟩)]
    simp only [hu]
    rw [if_neg (by simp [hav])]
    try dsimp only
    rw [if_neg hn1, if_neg hn2, if_neg hn3]
    try dsimp only
    have hcl : max 1 (min 100 (intTrunc (75 + min (dist / ((radius : ℚ) * 10)) 1 * 24))) =
        intTrunc (75 + min (dist / ((radius : ℚ) * 10)) 1 * 24) := by
      rw [htr]; omega
    rw [hcl]

/-- Witness for C3 at a concrete MATCH-branch input: distance 1000, radius
2000, device accuracy 500. -/
theorem C3_coordinate_mode_scoring_witness :
    verify_device_location envCoord "+40700000001" 0 0 2000 1000 =
      .ok { scamScore := max 1 (intTrunc (5 + (1000 : ℚ) / ((2000 : ℤ) : ℚ) * 10)),
            verificationResult := some "MATCH", status := "success" } ∧
    1 ≤ max 1 (intTrunc (5 + (1000 : ℚ) / ((2000 : ℤ) : ℚ) * 10)) ∧
    max 1 (intTrunc (5 + (1000 : ℚ) / ((2000 : ℤ) : ℚ) * 10)) ≤ 15 :=
  (C3_coordinate_mode_scoring envCoord "+40700000001" 0 0 2000 1000
      { location := { available := true, radius := 500 } }
      (by norm_num) (by norm_num) (by norm_num) (by norm_num)
      (by decide) (by decide) (by decide) (by rfl)).1
    (by norm_num) (by norm_num)

/-- Counterexample to claim C3 as stated: at distance 1100 and radius 2000
the code returns the integer score 10 while the claimed formula value
`5 + (1100/2000)*10 = 21/2` is not an integer; and at distance 4500 with
radius 2000 and device accuracy 5000 the distance exceeds `2*radius` yet the
result is PARTIAL_MATCH, not NO_MATCH. -/
theorem C3_coordinate_claim_counterexample :
    verify_device_location envCoord "+40700000001" 0 0 2000 1100 =
      .ok { scamScore := 10, verificationResult := some "MATCH", status := "success" } ∧
    (5 + (1100 : ℚ) / ((2000 : ℤ) : ℚ) * 10 = 21 / 2) ∧
    ((21 : ℚ) / 2 ≠ ((10 : ℤ) : ℚ)) ∧
    verify_device_location envCoord "+40700000002" 0 0 2000 4500 =
      .ok { scamScore := 35, verificationResult := some "PARTIAL_MATCH",
            status := "success" } ∧
    ((2000 : ℤ) : ℚ) * 2 < 4500 := by
  refine ⟨?_, by norm_num, by norm_num, ?_, by norm_num⟩
  · have hI : intTrunc (5 + (1100 : ℚ) / ((2000 : ℤ) : ℚ) * 10) = 10 := by
      have he : (5 + (1100 : ℚ) / ((2000 : ℤ) : ℚ) * 10) = ((21 : ℤ) : ℚ) / ((2 : ℕ) : ℚ) := by
        norm_num
      unfold intTrunc
      rw [if_pos (by norm_num : (0 : ℚ) ≤ 5 + (1100 : ℚ) / ((2000 : ℤ) : ℚ) * 10), he,
        Rat.floor_intCast_div_natCast]
      decide
    have hu1 : envCoord.userData "+40700000001" =
        some { location := { available := true, radius := 500 } } := by decide
    unfold verify_device_location
    rw [if_neg (not_not.mpr (by norm_num : (-90 : ℚ) ≤ 0 ∧ (0 : ℚ) ≤ 90)),
      if_neg (not_not.mpr (by norm_num : (-180 : ℚ) ≤ 0 ∧ (0 : ℚ) ≤ 180)),
      if_neg (not_not.mpr (by decide : (2000 : ℤ) ≤ 2000 ∧ (2000 : ℤ) ≤ 200000))]
    simp only [hu1]
    rw [if_neg (by decide)]
    try dsimp only
    rw [if_pos (by norm_num : (1100 : ℚ) ≤ ((2000 : ℤ) : ℚ))]
    try dsimp only
    have hM : max 1 (min 100 (max 1 (intTrunc (5 + (1100 : ℚ) / ((2000 : ℤ) : ℚ) * 10)))) =
        10 := by
      rw [hI]
      decide
    rw [hM]
  · have hI2 : intTrunc (20 + (1 - (((2000 + 5000 : ℤ) : ℚ) - 4500) / ((5000 : ℤ) : ℚ)) * 30) =
        35 := by
      have he : (20 + (1 - (((2000 + 5000 : ℤ) : ℚ) - 4500) / ((5000 : ℤ) : ℚ)) * 30) =
          ((35 : ℤ) : ℚ) := by norm_num
      rw [he]
      unfold intTrunc
      rw [if_pos (by norm_num : (0 : ℚ) ≤ ((35 : ℤ) : ℚ)), Int.floor_intCast]
    have hu2 : envCoord.userData "+40700000002" =
        some { location := { available := true, radius := 5000 } } := by decide
    unfold verify_device_location
    rw [if_neg (not_not.mpr (by norm_num : (-90 : ℚ) ≤ 0 ∧ (0 : ℚ) ≤ 90)),
      if_neg (not_not.mpr (by norm_num : (-180 : ℚ) ≤ 0 ∧ (0 : ℚ) ≤ 180)),
      if_neg (not_not.mpr (by decide : (2000 : ℤ) ≤ 2000 ∧ (2000 : ℤ) ≤ 200000))]
    simp only [hu2]
    rw [if_neg (by decide)]
    try dsimp only
    rw [if_neg (by norm_num : ¬(4500 : ℚ) ≤ ((2000 : ℤ) : ℚ)),
      if_pos (by norm_num : (4500 : ℚ) ≤ ((2000 + 5000 : ℤ) : ℚ))]
    try dsimp only
    have hM2 : max 1 (min 100 (intTrunc
        (20 + (1 - (((2000 + 5000 : ℤ) : ℚ) - 4500) / ((5000 : ℤ) : ℚ)) * 30))) = 35 := by
      rw [hI2]
      decide
    rw [hM2]

/-- Claim C7: for every synthetic legitimate profile — claimed city matching
the stored locality, a claimed company that resolves, a caller phone that
differs from the company official phone but belongs to a directory employee
whose name has similarity at least 4/5 with the claimed name, and KYC name
and address equal to the stored record — the overall scam score of
`detect_fraud` is at most 15. -/
theorem C7_legitimate_profile_low_score (env : Env) (ex : ExtractedData) (ph : String)
    (u : UserRecord) (cd : Company) (emp : Employee)
    (hu : env.userData ph = some u)
    (hloc : pyOr ex.locality ex.location ≠ "")
    (hcity : containsCI (pyOr ex.locality ex.location) u.kyc.locality)
    (hcomp : find_company_by_name env (pyOr ex.companyName ex.company) = some cd)
    (hphone : ph ≠ cd.company_phone)
    (hemp : find_employee_by_phone env ph = some emp)
    (hsim : 4 / 5 ≤ calculate_name_similarity ex.name emp.name)
    (hname : ex.name = u.kyc.name) (hnn : u.kyc.name ≠ "")
    (haddr : ex.address = u.kyc.address) :
    (detect_fraud env ex ph).overall_scam_score ≤ 15 := by
  have hb1 : (strIn (pyLower (pyOr ex.locality ex.location)) (pyLower u.kyc.locality) ||
      strIn (pyLower u.kyc.locality) (pyLower (pyOr ex.locality ex.location))) = true :=
    (cityBool_iff _ _).mpr hcity
  have hlocs : (locationStep env ph (pyOr ex.locality ex.location) ex.country).1 = 8 ∨
      (locationStep env ph (pyOr ex.locality ex.location) ex.country).1 = 25 := by
    unfold locationStep
    rw [if_neg hloc]
    by_cases hco : ex.country = "" ∨ containsCI ex.country u.kyc.country
    · left
      have hb2 := (countryBool_iff ex.country u.kyc.country).mpr hco
      simp [verify_device_location_by_city, hu, hb1, hb2]
    · right
      have hb2 : (if ex.country = "" then true
          else strIn (pyLower ex.country) (pyLower u.kyc.country) ||
            strIn (pyLower u.kyc.country) (pyLower ex.country)) = false := by
        rcases Bool.eq_false_or_eq_true (if ex.country = "" then true
            else strIn (pyLower ex.country) (pyLower u.kyc.country) ||
              strIn (pyLower u.kyc.country) (pyLower ex.country)) with h | h
        · exact absurd ((countryBool_iff ex.country u.kyc.country).mp h) hco
        · exact h
      simp [verify_device_location_by_city, hu, hb1, hb2]
  have hcne : pyOr ex.companyName ex.company ≠ "" := by
    intro h0
    rw [h0] at hcomp
    simp [find_company_by_name] at hcomp
  have hinner : companyBranchInner env ph ex.name (pyOr ex.companyName ex.company) [] =
      .ok (10, ["Verified employee with name match"]) := by
    unfold companyBranchInner
    rw [hcomp]
    dsimp only
    rw [if_neg hphone, hemp]
    dsimp only
    rw [if_pos hsim]
    rfl
  have hcs : (companyStep env ph ex.name (pyOr ex.companyName ex.company) []).1 = 10 := by
    unfold companyStep
    rw [if_neg hcne, hinner]
  have hpn : ex.name ≠ "" := by rw [hname]; exact hnn
  have hks : (kycStep env ph ex.name ex.address).1 = 1 ∨
      (kycStep env ph ex.name ex.address).1 = 5 ∨
      (kycStep env ph ex.name ex.address).1 = 10 := by
    by_cases haz : ex.address = ""
    · left
      have hv : verify_kyc_data env ph ex.name ex.address =
          { status := "success", overall_match_score := 100 } := by
        unfold verify_kyc_data
        rw [hu]
        dsimp only
        rw [if_neg hpn, if_pos hnn, hname, if_pos rfl, if_pos haz]
        decide
      unfold kycStep
      rw [hv]
      rfl
    · have hsz : u.kyc.address ≠ "" := by rw [← haddr]; exact haz
      by_cases hst : (decide (u.kyc.streetName ≠ "") &&
          strIn (pyLower u.kyc.streetName) (pyStrip (pyLower u.kyc.address))) = true
      · right; left
        have hv : verify_kyc_data env ph ex.name ex.address =
            { status := "success", overall_match_score := 95 } := by
          unfold verify_kyc_data
          rw [hu]
          dsimp only
          rw [haddr, if_neg hpn, if_pos hnn, hname, if_pos rfl, if_neg hsz,
            if_pos (Or.inl hsz), if_pos hst]
          decide
        unfold kycStep
        rw [hv]
        rfl
      · right; right
        have h80 : (decide (u.kyc.address ≠ "") &&
            (strIn (pyStrip (pyLower u.kyc.address)) (pyLower u.kyc.address) ||
             strIn (pyLower u.kyc.address) (pyStrip (pyLower u.kyc.address)))) = true := by
          rw [strIn_pyStrip]
          simp [hsz]
        have hv : verify_kyc_data env ph ex.name ex.address =
            { status := "success", overall_match_score := 90 } := by
          unfold verify_kyc_data
          rw [hu]
          dsimp only
          rw [haddr, if_neg hpn, if_pos hnn, hname, if_pos rfl, if_neg hsz,
            if_pos (Or.inl hsz), if_neg hst, if_pos h80]
          decide
        unfold kycStep
        rw [hv]
        rfl
  rw [detect_fraud_overall_eq]
  rcases hlocs with hL | hL <;> rcases hks with hK | hK | hK <;>
    rw [hL, hcs, hK] <;> decide

/-- Witness for C7 at the concrete legitimate profile. -/
theorem C7_legitimate_profile_low_score_witness :
    (detect_fraud envLegit exLegit "+40777000111").overall_scam_score ≤ 15 :=
  C7_legitimate_profile_low_score envLegit exLegit "+40777000111"
    { kyc := { name := "Ana Pop", locality := "Sibiu" } }
    { company_name := "TechCorp", company_phone := "+40211000000",
      company_employees := [{ name := "Ana Pop", phone := "+40777000111" }] }
    { name := "Ana Pop", phone := "+40777000111" }
    (by decide) (by decide) (by unfold containsCI; decide) (by decide) (by decide) (by decide)
    (by norm_num +decide [calculate_name_similarity, exLegit])
    (by rfl) (by decide) (by rfl)
